import Mathlib

/-!
# Inspector agent (`src/inspector_agent.cc`): a shallow embedding

The agent bridges a debugger frontend (a socket served by the IO thread) and
the V8 inspector (the Protocol Engine, driven by the control thread).

Modelling conventions

* `std::string` is a `List Char`; `std::vector<std::string>` is a list of them.
* `inspector_socket_t*` is the address of the socket; `nullptr` is `none`.
* Calls that leave the translation unit (libuv, the inspector socket
  transport, the V8 inspector, the platform) are recorded, in program order,
  in the `log` of the agent.  The platform foreground queue that
  `CallOnForegroundThread` appends to is the field `foreground_tasks`.
* `uv_mutex_lock`/`uv_mutex_unlock` pairs delimit the atomic sections; every
  function below is one such sequential section (or a sequence of them).
-/

namespace Inspector

/-- A protocol message: the bytes of a `std::string`. -/
abbrev Message := List Char

/-- The address held by an `inspector_socket_t*` that is not `nullptr`. -/
abbrev Socket := Nat

/-- The two `v8::Task` subclasses posted to the control thread. -/
inductive Task where
  | DispatchOnInspectorBackendTask
  | SetConnectedTask (connected_ : Bool)
  deriving DecidableEq, Repr

/-- The two `uv_async_t` members of `Agent` that `uv_async_send` is called on. -/
inductive AsyncHandle where
  | data_written_
  | io_thread_req_
  deriving DecidableEq, Repr

/-- External calls, as recorded in the log. -/
inductive Effect where
  | dispatchMessageFromFrontend (message : Message)
  | connectFrontend
  | disconnectFrontend
  | quitMessageLoopOnPause
  | uv_async_send (handle : AsyncHandle)
  | uv_cond_broadcast
  | uv_sem_post
  | inspector_read_start (socket : Socket)
  | inspector_close (socket : Socket)
  | inspector_write (socket : Socket) (message : Message)
  | RequestInterrupt
  | PrintDebuggerReadyMessage (port : Int)
  | fprintf_Debugger_attached
  | uv_thread_join
  | uv_run_child_loop
  | uv_loop_close
  | delete_inspector
  deriving DecidableEq, Repr

/-- The private state of `V8NodeInspector`. -/
structure V8NodeInspector where
  terminated_ : Bool
  running_nested_loop_ : Bool
  deriving DecidableEq, Repr

/-- The members of `Agent` after `Start` (so `inspector_` and `platform_` are
not null), with the foreground queue of the platform and the log of external
calls. -/
structure Agent where
  port_ : Int
  wait_ : Bool
  connected_ : Bool
  shutting_down_ : Bool
  client_socket_ : Option Socket
  inspector_ : V8NodeInspector
  message_queue_ : List Message
  outgoing_message_queue_ : List Message
  dispatching_messages_ : Bool
  foreground_tasks : List Task
  log : List Effect
  deriving DecidableEq, Repr

/-- A pointer to one of the two queue members of `Agent`
(`std::vector<std::string> Agent::*`, or the address of that member). -/
inductive QueueMember where
  | message_queue_
  | outgoing_message_queue_
  deriving DecidableEq, Repr

/-- Dereference of a queue member pointer: `agent.*queue`. -/
def Agent.queue (agent : Agent) : QueueMember → List Message
  | .message_queue_ => agent.message_queue_
  | .outgoing_message_queue_ => agent.outgoing_message_queue_

/-- Assignment through a queue member pointer. -/
def Agent.setQueue (agent : Agent) (queue : QueueMember) (v : List Message) : Agent :=
  match queue with
  | .message_queue_ => { agent with message_queue_ := v }
  | .outgoing_message_queue_ => { agent with outgoing_message_queue_ := v }

/-- Append one external call to the log. -/
def Agent.emit (agent : Agent) (e : Effect) : Agent :=
  { agent with log := agent.log ++ [e] }

/-- `Agent::PushPendingMessage`: `queue->push_back(message)` under `queue_lock_`. -/
def PushPendingMessage (agent : Agent) (queue : QueueMember) (message : Message) : Agent :=
  agent.setQueue queue (agent.queue queue ++ [message])

/-- `Agent::SwapBehindLock`: `(this->*queue).swap(*output)` under `queue_lock_`.
Returns the agent and the new content of `*output`. -/
def SwapBehindLock (agent : Agent) (queue : QueueMember) (output : List Message) :
    Agent × List Message :=
  (agent.setQueue queue output, agent.queue queue)

/-- One operation on a mailbox: a push, or a drain into a fresh empty vector. -/
inductive MailboxOp where
  | push (message : Message)
  | drain
  deriving DecidableEq, Repr

/-- Runs an interleaving of pushes and drains on the queue `queue`; the second
component collects the drained vectors in drain order. -/
def runMailbox (queue : QueueMember) : Agent → List MailboxOp → Agent × List (List Message)
  | agent, [] => (agent, [])
  | agent, .push message :: ops => runMailbox queue (PushPendingMessage agent queue message) ops
  | agent, .drain :: ops =>
    let r := SwapBehindLock agent queue []
    let rest := runMailbox queue r.1 ops
    (rest.1, r.2 :: rest.2)

/-- The messages pushed by an interleaving, in push order. -/
def pushed : List MailboxOp → List Message
  | [] => []
  | .push message :: ops => message :: pushed ops
  | .drain :: ops => pushed ops

/-! ## The pause controller (`V8NodeInspector`) -/

/-- `V8NodeInspector::quitMessageLoopOnPause`. -/
def V8NodeInspector.quitMessageLoopOnPause (i : V8NodeInspector) : V8NodeInspector :=
  { i with terminated_ := true }

/-- What a task run by `PumpMessageLoop` can do to the pause controller: its
two flags are private, so a pumped task reaches them only through these two
member functions. -/
inductive PumpCall where
  | quitMessageLoopOnPause
  | runMessageLoopOnPause
  deriving DecidableEq, Repr

/-- One return of `uv_cond_wait(&agent_->pause_cond_, ...)`, with the calls made
on the controller by the tasks that the following `PumpMessageLoop` loop runs. -/
abbrev Wake := List PumpCall

/-- The controller together with its environment: the wake-ups of the
condition still to come, the number of completed `uv_cond_wait` calls, and the
calls pumped so far. -/
structure PauseState where
  inspector : V8NodeInspector
  wakes : List Wake
  waits : Nat
  pumped : List PumpCall
  deriving DecidableEq, Repr

/-- How a call on the control thread ends: it returns, it stays parked in
`uv_cond_wait` because no wake-up comes any more, or the model ran out of fuel. -/
inductive Outcome where
  | returned (s : PauseState)
  | blocked (s : PauseState)
  | outOfFuel
  deriving DecidableEq, Repr

/-- The `while (v8::platform::PumpMessageLoop(platform_, isolate_)) {}` loop of
one wake-up: the calls of the pumped tasks, in order. `nested` is a call of
`runMessageLoopOnPause` from a pumped task. -/
def pumpTasks (nested : PauseState → Outcome) : PauseState → List PumpCall → Outcome
  | s, [] => .returned s
  | s, .quitMessageLoopOnPause :: calls =>
    pumpTasks nested
      { s with inspector := s.inspector.quitMessageLoopOnPause,
               pumped := s.pumped ++ [.quitMessageLoopOnPause] } calls
  | s, .runMessageLoopOnPause :: calls =>
    match nested { s with pumped := s.pumped ++ [.runMessageLoopOnPause]} with
    | .returned s1 => pumpTasks nested s1 calls
    | r => r

/-- The `do { wait; pump } while (!terminated_)` loop of
`runMessageLoopOnPause`. -/
def pauseLoop (nested : PauseState → Outcome) : Nat → PauseState → Outcome
  | 0, _ => .outOfFuel
  | n + 1, s =>
    match s.wakes with
    | [] => .blocked s
    | w :: ws =>
      match pumpTasks nested { s with wakes := ws, waits := s.waits + 1 } w with
      | .returned s1 => if s1.inspector.terminated_ then .returned s1 else pauseLoop nested n s1
      | r => r

/-- `V8NodeInspector::runMessageLoopOnPause`. -/
def runMessageLoopOnPause : Nat → PauseState → Outcome
  | 0, s => if s.inspector.running_nested_loop_ then .returned s else .outOfFuel
  | n + 1, s =>
    if s.inspector.running_nested_loop_ then .returned s
    else
      let s1 := { s with inspector := { terminated_ := false, running_nested_loop_ := true } }
      match pauseLoop (runMessageLoopOnPause n) n s1 with
      | .returned s2 =>
        .returned { s2 with inspector := { terminated_ := false, running_nested_loop_ := false } }
      | r => r

/-! ## The agent -/

/-- `Agent::Agent` followed by a successful `Agent::Start(platform, port, wait)`
up to the creation of the IO thread. -/
def Agent.started (port : Int) (wait : Bool) : Agent :=
  { port_ := port, wait_ := wait, connected_ := false, shutting_down_ := false,
    client_socket_ := none,
    inspector_ := { terminated_ := false, running_nested_loop_ := false },
    message_queue_ := [], outgoing_message_queue_ := [],
    dispatching_messages_ := false, foreground_tasks := [], log := [] }

/-- `platform_->CallOnForegroundThread(isolate, task)`: the task joins the
foreground queue of the control thread. -/
def CallOnForegroundThread (agent : Agent) (task : Task) : Agent :=
  { agent with foreground_tasks := agent.foreground_tasks ++ [task] }

/-- `DisconnectAndDisposeIO`. -/
def DisconnectAndDisposeIO (agent : Agent) (socket : Option Socket) : Agent :=
  match socket with
  | some s => agent.emit (.inspector_close s)
  | none => agent

/-- `inspector_->quitMessageLoopOnPause()`. -/
def quitMessageLoopOnPause (agent : Agent) : Agent :=
  { agent with inspector_ := agent.inspector_.quitMessageLoopOnPause,
               log := agent.log ++ [.quitMessageLoopOnPause] }

/-- `Agent::SetConnected`. -/
def SetConnected (agent : Agent) (connected : Bool) : Agent :=
  if agent.connected_ = connected then agent
  else
    let agent := { agent with connected_ := connected }
    if connected then
      (agent.emit .fprintf_Debugger_attached).emit .connectFrontend
    else
      let agent :=
        if !agent.shutting_down_ then agent.emit (.PrintDebuggerReadyMessage agent.port_)
        else agent
      (quitMessageLoopOnPause agent).emit .disconnectFrontend

/-- `Agent::Write`. -/
def Write (agent : Agent) (message : Message) : Agent :=
  (PushPendingMessage agent .outgoing_message_queue_ message).emit
    (.uv_async_send .io_thread_req_)

/-- `Agent::WriteCbIO`. -/
def WriteCbIO (agent : Agent) : Agent :=
  match agent.client_socket_ with
  | some socket =>
    let r := SwapBehindLock agent .outgoing_message_queue_ []
    r.2.foldl (fun a message => a.emit (.inspector_write socket message)) r.1
  | none => agent

/-- `Agent::OnInspectorConnectionIO`. -/
def OnInspectorConnectionIO (agent : Agent) (socket : Socket) : Agent :=
  if agent.client_socket_.isSome then agent
  else
    let agent := { agent with client_socket_ := some socket }
    let agent := agent.emit (.inspector_read_start socket)
    CallOnForegroundThread agent (.SetConnectedTask true)

/-- `std::string::find` with a string argument, from position 0; `npos` is `none`. -/
def find (str needle : List Char) : Option Nat :=
  match str with
  | [] => if needle.isEmpty then some 0 else none
  | c :: cs =>
    if needle.isPrefixOf (c :: cs) then some 0 else (find cs needle).map (· + 1)

/-- The literal `"\"Runtime.run\""`. -/
def Runtime_run : List Char := "\"Runtime.run\"".toList

/-- `Agent::OnRemoteDataIO` for the socket `socket`, with the read count `read`
and the content `b` of the buffer. -/
def OnRemoteDataIO (agent : Agent) (socket : Socket) (read : Int) (b : List Char) : Agent :=
  let agent :=
    if read > 0 then
      let str : Message := b.take read.toNat
      let agent := PushPendingMessage agent .message_queue_ str
      let agent :=
        if agent.wait_ && (find str Runtime_run).isSome then
          ({ agent with wait_ := false }).emit .uv_sem_post
        else agent
      let agent := CallOnForegroundThread agent .DispatchOnInspectorBackendTask
      let agent := agent.emit .RequestInterrupt
      agent.emit (.uv_async_send .data_written_)
    else if read < 0 then
      let agent :=
        if agent.client_socket_ = some socket then { agent with client_socket_ := none }
        else agent
      DisconnectAndDisposeIO agent (some socket)
    else
      if agent.client_socket_ = some socket then
        let agent := { agent with client_socket_ := none }
        let agent := CallOnForegroundThread agent (.SetConnectedTask false)
        agent.emit (.uv_async_send .data_written_)
      else agent
  agent.emit .uv_cond_broadcast

/-! ### Dispatch and re-entrancy

`inspector_->dispatchMessageFromFrontend` is the Protocol Engine. While it
handles a message it can call back into this file, on the same thread: -/

/-- A synchronous call back into the agent made while the engine handles a
message. -/
inductive Call where
  /-- `InterruptCallback`, requested by `RequestInterrupt`: `PostMessages()`. -/
  | InterruptCallback
  /-- A nested `v8::platform::PumpMessageLoop`: runs the next foreground task. -/
  | PumpMessageLoop
  /-- `ChannelImpl::sendMessageToFrontend`: `agent_->Write(message)`. -/
  | sendMessageToFrontend (message : Message)
  /-- `V8NodeInspector::quitMessageLoopOnPause`. -/
  | quitMessageLoopOnPause
  deriving DecidableEq, Repr

/-- A Protocol Engine: from the log so far (which ends with the dispatch of
the message) and the message, the calls it makes while handling it. -/
abbrev Engine := List Effect → Message → List Call

/-- Runs `f` over `xs` from left to right, stopping at the first failure. -/
def forEach {α : Type} (f : Agent → α → Option Agent) : Agent → List α → Option Agent
  | agent, [] => some agent
  | agent, x :: xs => (f agent x).bind fun agent1 => forEach f agent1 xs

/-- `Task::Run`; `post` is `Agent::PostMessages`. -/
def Run (post : Agent → Option Agent) (agent : Agent) : Task → Option Agent
  | .DispatchOnInspectorBackendTask => post agent
  | .SetConnectedTask connected => some (SetConnected agent connected)

/-- `v8::platform::PumpMessageLoop`: pops the next foreground task, if any, and
runs it. -/
def PumpMessageLoop (post : Agent → Option Agent) (agent : Agent) : Option Agent :=
  match agent.foreground_tasks with
  | [] => some agent
  | task :: tasks => Run post { agent with foreground_tasks := tasks } task

/-- One call back from the engine. -/
def runCall (post : Agent → Option Agent) (agent : Agent) : Call → Option Agent
  | .InterruptCallback => post agent
  | .PumpMessageLoop => PumpMessageLoop post agent
  | .sendMessageToFrontend message => some (Write agent message)
  | .quitMessageLoopOnPause => some (quitMessageLoopOnPause agent)

/-- `inspector_->dispatchMessageFromFrontend(message)` for the engine `E`. -/
def dispatchMessageFromFrontend (E : Engine) (post : Agent → Option Agent)
    (agent : Agent) (message : Message) : Option Agent :=
  let agent := agent.emit (.dispatchMessageFromFrontend message)
  forEach (runCall post) agent (E agent.log message)

/-- `Agent::PostMessages`. The fuel bounds the depth of re-entrant calls that
get past the guard; `none` is out of fuel. -/
def PostMessages (E : Engine) : Nat → Agent → Option Agent
  | 0, agent => if agent.dispatching_messages_ then some agent else none
  | n + 1, agent =>
    if agent.dispatching_messages_ then some agent
    else
      let agent := { agent with dispatching_messages_ := true }
      let r := SwapBehindLock agent .message_queue_ []
      (forEach (dispatchMessageFromFrontend E (PostMessages E n)) r.1 r.2).map fun agent =>
        { agent.emit (.uv_async_send .data_written_) with dispatching_messages_ := false }

/-- `while (v8::platform::PumpMessageLoop(platform_, isolate_)) {}` on the
control thread: runs the foreground tasks until the queue is empty. -/
def drainForeground (E : Engine) : Nat → Agent → Option Agent
  | 0, agent => if agent.foreground_tasks.isEmpty then some agent else none
  | n + 1, agent =>
    if agent.foreground_tasks.isEmpty then some agent
    else (PumpMessageLoop (PostMessages E n) agent).bind (drainForeground E n)

/-! ## C strings and the C library

A `const char*` argument is the list of the characters it points to; the
string it denotes ends at the first NUL, or at the end of the list. -/

/-- The string a `const char*` denotes: the characters before the first NUL. -/
def cstr (s : List Char) : List Char := s.takeWhile (· ≠ '\x00')

/-- C library `strncmp(s1, s2, n)`: compares at most `n` characters, stops
after a NUL, and returns the difference of the first differing pair. -/
def strncmp : List Char → List Char → Nat → Int
  | _, _, 0 => 0
  | s1, s2, n + 1 =>
    if s1.headD '\x00' ≠ s2.headD '\x00' then
      ((s1.headD '\x00').toNat : Int) - ((s2.headD '\x00').toNat : Int)
    else if s1.headD '\x00' = '\x00' then 0
    else strncmp s1.tail s2.tail n

/-- The `sizeof` of a `const char[]` initialised by a string literal: its
characters and the NUL. -/
def sizeof_literal (lit : List Char) : Nat := lit.length + 1

/-- `DEVTOOLS_PATH`. -/
def DEVTOOLS_PATH : List Char := "/node".toList

/-- `AcceptsConnection`. -/
def AcceptsConnection (_socket : Socket) (path : List Char) : Bool :=
  strncmp DEVTOOLS_PATH path (sizeof_literal DEVTOOLS_PATH) == 0

/-- The decimal digits of `n`, most significant first; `fuel` bounds their number. -/
def decimalFuel : Nat → Nat → List Char
  | 0, n => [Nat.digitChar n]
  | fuel + 1, n =>
    if n < 10 then [Nat.digitChar n]
    else decimalFuel fuel (n / 10) ++ [Nat.digitChar (n % 10)]

/-- The decimal notation of a natural number, as `printf` writes it. -/
def decimal (n : Nat) : List Char := decimalFuel n n

/-- The decimal notation of an integer, as `printf` writes it for `%d` and `%ld`. -/
def decimalInt (v : Int) : List Char :=
  if v < 0 then '-' :: decimal v.natAbs else decimal v.natAbs

/-- C library `isspace` in the C locale. -/
def isspace (c : Char) : Bool :=
  c = ' ' || c = '\t' || c = '\n' || c = '\x0b' || c = '\x0c' || c = '\r'

/-- The value of the decimal digits a text starts with, added to `acc` as its
leading digits; the reading stops at the first character that is not a digit. -/
def digitsValue : Nat → List Char → Nat
  | acc, [] => acc
  | acc, c :: cs =>
    if c.isDigit then digitsValue (acc * 10 + (c.toNat - '0'.toNat)) cs else acc

/-- The number a text starts with, as the `strtol` family reads it in base 10:
white space is skipped, then an optional sign and the decimal digits are read.
This is the mathematical value, without any bound. -/
def decimalValue (s : List Char) : Int :=
  match s.dropWhile isspace with
  | '-' :: t => - (digitsValue 0 t : Int)
  | '+' :: t => (digitsValue 0 t : Int)
  | t => (digitsValue 0 t : Int)

/-- `INT_MIN`, for a 32-bit `int`. -/
def INT_MIN : Int := -2147483648

/-- `INT_MAX`, for a 32-bit `int`. -/
def INT_MAX : Nat := 2147483647

/-- `LONG_MIN`, for a 64-bit `long`. -/
def LONG_MIN : Int := -9223372036854775808

/-- `LONG_MAX`, for a 64-bit `long`. -/
def LONG_MAX : Int := 9223372036854775807

/-- C library `strtol(nptr, NULL, 10)`: the number the text starts with, and
`LONG_MAX` or `LONG_MIN` when that number is outside the range of `long`. -/
def strtol (nptr : List Char) : Int :=
  max LONG_MIN (min LONG_MAX (decimalValue nptr))

/-- The conversion of a `long` to `int`: the value modulo `2^32`, in the range
of `int`. -/
def long_to_int (v : Int) : Int :=
  (v + 2147483648) % 4294967296 - 2147483648

/-- C library `atoi`, as the GNU C library defines it:
`(int) strtol(nptr, NULL, 10)`. For a number in the range of `int` this is the
number; outside that range C leaves the result undefined, and this library
gives the low 32 bits of the `long` that `strtol` returns, so that
`atoi("4294968530")` is 1234. -/
def atoi (nptr : List Char) : Int :=
  long_to_int (strtol nptr)

/-- An argument of a `printf` call, by the conversion that reads it. -/
inductive Arg where
  | s (str : List Char)
  | d (v : Int)
  | ld (v : Int)
  deriving DecidableEq, Repr

/-- The text a `printf` format produces from its arguments, for the
conversions `%s`, `%d` and `%ld` used in this file. -/
def printf_format : List Char → List Arg → List Char
  | [], _ => []
  | '%' :: 's' :: fmt, .s str :: args => cstr str ++ printf_format fmt args
  | '%' :: 'd' :: fmt, .d v :: args => decimalInt v ++ printf_format fmt args
  | '%' :: 'l' :: 'd' :: fmt, .ld v :: args => decimalInt v ++ printf_format fmt args
  | c :: fmt, args => c :: printf_format fmt args

/-- C library `snprintf(buf, size, format, ...)`: the characters stored in
`buf` before the NUL (at most `size - 1`), and the return value, which is the
length of the whole text. -/
def snprintf (size : Nat) (fmt : List Char) (args : List Arg) : List Char × Nat :=
  ((printf_format fmt args).take (size - 1), (printf_format fmt args).length)

/-- A `size_t` passed where `%ld` reads a `long` (both 64 bits wide). -/
def as_long (len : Nat) : Int :=
  if len % 2 ^ 64 < 2 ^ 63 then ((len % 2 ^ 64 : Nat) : Int)
  else ((len % 2 ^ 64 : Nat) : Int) - 2 ^ 64

/-- `HEADERS` of `SendHttpResponse`. -/
def HEADERS : List Char :=
  ("HTTP/1.0 200 OK\r\n" ++
   "Content-Type: application/json; charset=UTF-8\r\n" ++
   "Cache-Control: no-cache\r\n" ++
   "Content-Length: %ld\r\n" ++
   "\r\n").toList

/-- `SendHttpResponse`: the two `inspector_write` calls. A write of `len`
characters from a buffer is the first `len` characters stored in it. -/
def SendHttpResponse (socket : Socket) (response : List Char) (len : Nat) : List Effect :=
  let header := snprintf (sizeof_literal HEADERS + 20) HEADERS [.ld (as_long len)]
  [.inspector_write socket (header.1.take header.2),
   .inspector_write socket (response.take len)]

/-! ## The discovery responder -/

/-- What the responder reads from its process: `getpid()`, whose type `pid_t`
is `int`, the macro `NODE_VERSION` (of `node_version.h`), and the title that
`uv_get_process_title` reports. -/
structure Process where
  getpid : Int
  getpid_int : INT_MIN ≤ getpid ∧ getpid ≤ (INT_MAX : Int)
  NODE_VERSION : List Char
  process_title : List Char

/-- `VERSION_RESPONSE_TEMPLATE` of `SendVersionResponse`. -/
def VERSION_RESPONSE_TEMPLATE : List Char :=
  ("[ \x7b" ++
   "  \"Browser\": \"node.js/%s\"," ++
   "  \"Protocol-Version\": \"1.1\"," ++
   "  \"User-Agent\": \"Mozilla/5.0 (X11; Linux x86_64) AppleWebKit/537.36" ++
   "(KHTML, like Gecko) Chrome/45.0.2446.0 Safari/537.36\"," ++
   "  \"WebKit-Version\": \"537.36 (@198122)\"" ++
   "\x7d ]").toList

/-- `SendVersionResponse`. `none` is the abort of a failed `ASSERT_LT`. -/
def SendVersionResponse (P : Process) (socket : Socket) : Option (List Effect) :=
  let buffer_size := sizeof_literal VERSION_RESPONSE_TEMPLATE + 128
  let r := snprintf buffer_size VERSION_RESPONSE_TEMPLATE [.s P.NODE_VERSION]
  if r.2 < buffer_size then some (SendHttpResponse socket r.1 r.2) else none

/-- `LIST_RESPONSE_TEMPLATE` of `SendTargentsListResponse`. -/
def LIST_RESPONSE_TEMPLATE : List Char :=
  ("[ \x7b" ++
   "  \"description\": \"node.js instance\"," ++
   "  \"devtoolsFrontendUrl\": " ++
   "\"https://chrome-devtools-frontend.appspot.com/serve_file/" ++
   "@4604d24a75168768584760ba56d175507941852f/inspector.html\"," ++
   "  \"faviconUrl\": \"https://nodejs.org/static/favicon.ico\"," ++
   "  \"id\": \"%d\"," ++
   "  \"title\": \"%s\"," ++
   "  \"type\": \"node\"," ++
   "  \"webSocketDebuggerUrl\": \"ws://%s\"" ++
   "\x7d ]").toList

/-- The loop `char* c = title; while (!c) { if (*c < ' ' || *c == '\"') *c = '_'; c++; }`
of `SendTargentsListResponse`: its condition tests the pointer `c`, which holds
the address of the array `title` and is not null, so the body does not run. -/
def sanitize_title (title : List Char) : List Char :=
  let c_is_null := false
  if c_is_null then title.map fun ch => if ch < ' ' || ch = '"' then '_' else ch
  else title

/-- `SendTargentsListResponse`. `uv_get_process_title(title, sizeof(title))`
succeeds and stores the title, trimmed to the 2048 bytes of `title`; `none` is
the abort of a failed `ASSERT_LT`. -/
def SendTargentsListResponse (P : Process) (socket : Socket) : Option (List Effect) :=
  let buffer_size := sizeof_literal LIST_RESPONSE_TEMPLATE + 4096
  let title := sanitize_title ((cstr P.process_title).take (2048 - 1))
  let r := snprintf buffer_size LIST_RESPONSE_TEMPLATE
    [.d P.getpid, .s title, .s DEVTOOLS_PATH]
  if r.2 < buffer_size then some (SendHttpResponse socket r.1 r.2) else none

/-- `PATH` of `RespondToGet`. -/
def PATH : List Char := "/json".toList

/-- `PATH_LIST` of `RespondToGet`. -/
def PATH_LIST : List Char := "/json/list".toList

/-- `PATH_VERSION` of `RespondToGet`. -/
def PATH_VERSION : List Char := "/json/version".toList

/-- `PATH_ACTIVATE` of `RespondToGet`. -/
def PATH_ACTIVATE : List Char := "/json/activate/".toList

/-- `TARGET_ACTIVATED` of `RespondToGet`. -/
def TARGET_ACTIVATED : List Char := "Target activated".toList

/-- `RespondToGet`: the return value and the writes to the socket; `none` is an
abort in one of the senders. -/
def RespondToGet (P : Process) (socket : Socket) (path : List Char) :
    Option (Bool × List Effect) :=
  if strncmp PATH_VERSION path (sizeof_literal PATH_VERSION) == 0 then
    (SendVersionResponse P socket).map fun writes => (true, writes)
  else if strncmp PATH_LIST path (sizeof_literal PATH_LIST) == 0 ||
          strncmp PATH path (sizeof_literal PATH) == 0 then
    (SendTargentsListResponse P socket).map fun writes => (true, writes)
  else if strncmp path PATH_ACTIVATE (sizeof_literal PATH_ACTIVATE - 1) == 0 &&
          atoi (path.drop (sizeof_literal PATH_ACTIVATE - 1)) == P.getpid then
    some (true, SendHttpResponse socket TARGET_ACTIVATED (sizeof_literal TARGET_ACTIVATED - 1))
  else
    some (false, [])

/-! ## Handshake and shutdown -/

/-- `enum inspector_handshake_event` (of `inspector_socket.h`). -/
inductive inspector_handshake_event where
  | kInspectorHandshakeHttpGet
  | kInspectorHandshakeUpgrading
  | kInspectorHandshakeUpgraded
  | kInspectorHandshakeFailed
  deriving DecidableEq, Repr

/-- `Agent::OnInspectorHandshakeIO`: the agent afterwards and the return value. -/
def OnInspectorHandshakeIO (P : Process) (agent : Agent) (socket : Socket)
    (state : inspector_handshake_event) (path : List Char) : Option (Agent × Bool) :=
  match state with
  | .kInspectorHandshakeHttpGet =>
    (RespondToGet P socket path).map fun r => ({ agent with log := agent.log ++ r.2 }, r.1)
  | .kInspectorHandshakeUpgrading => some (agent, AcceptsConnection socket path)
  | .kInspectorHandshakeUpgraded => some ( OnInspectorConnectionIO agent socket, true)
  | .kInspectorHandshakeFailed => some (agent, false)

/-- `Agent::Stop`. -/
def Stop (agent : Agent) : Agent :=
  let agent := DisconnectAndDisposeIO agent agent.client_socket_
  (((agent.emit .uv_thread_join).emit .uv_run_child_loop).emit .uv_loop_close).emit
    .delete_inspector

/-- The callback each async handle is initialised with: `Agent::Start` calls
`uv_async_init(env->event_loop(), &data_written_, nullptr)`, and
`Agent::WorkerRunIO` calls
`uv_async_init(&child_loop_, &io_thread_req_, Agent::WriteCbIO)`. -/
def uv_async_init_cb : AsyncHandle → Option (Agent → Agent)
  | .data_written_ => none
  | .io_thread_req_ => some WriteCbIO

/-! ## The channel to the frontend -/

/-- `ChannelImpl::sendMessageToFrontend`: `agent_->Write(message->toJSONString().utf8())`;
`message` is that JSON text. -/
def ChannelImpl.sendMessageToFrontend (agent : Agent) (message : Message) : Agent :=
  Write agent message

/-- `ChannelImpl::sendProtocolResponse`. -/
def ChannelImpl.sendProtocolResponse (agent : Agent) (_sessionId _callId : Int)
    (message : Message) : Agent :=
  ChannelImpl.sendMessageToFrontend agent message

/-- `ChannelImpl::sendProtocolNotification`. -/
def ChannelImpl.sendProtocolNotification (agent : Agent) (message : Message) : Agent :=
  ChannelImpl.sendMessageToFrontend agent message

/-- One call of `Agent::OnRemoteDataIO` by the IO loop: the socket, the read
count and the buffer content. -/
structure RemoteRead where
  socket : Socket
  read : Int
  b : List Char
  deriving DecidableEq, Repr

/-- A sequence of `OnRemoteDataIO` calls, in order. -/
def receiveAll : Agent → List RemoteRead → Agent
  | agent, [] => agent
  | agent, r :: rs => receiveAll ( OnRemoteDataIO agent r.socket r.read r.b) rs

/-! ## `crypto/crypto_random.cc` -/

/-- The members of `RandomBytesConfig` that `AdditionalConfig` sets; `buffer`
is the distance of `params->buffer` from `in.data()`. -/
structure RandomBytesConfig where
  buffer : Nat
  size : Nat
  deriving DecidableEq, Repr

/-- How `RandomBytesTraits::AdditionalConfig` ends: a failed `CHECK` aborts the
process; `Nothing<bool>()` follows `THROW_ERR_OUT_OF_RANGE`; `Just(true)` comes
with the members of `*params` that were set. -/
inductive ConfigResult where
  | check_failed
  | Nothing_ERR_OUT_OF_RANGE
  | Just_true (params : RandomBytesConfig)
  deriving DecidableEq, Repr

/-- `RandomBytesTraits::AdditionalConfig` for a byte source of `in_size` bytes
and the `uint32_t` values `byte_offset` and `size` (the three `CHECK`s on the
argument types hold for such arguments). -/
def RandomBytesTraits.AdditionalConfig (in_size byte_offset size : Nat) : ConfigResult :=
  if ¬ ((byte_offset + size) % 2 ^ 32 ≥ byte_offset) then .check_failed
  else if ¬ ((byte_offset + size) % 2 ^ 32 ≤ in_size) then .check_failed
  else if size > INT_MAX then .Nothing_ERR_OUT_OF_RANGE
  else .Just_true { buffer := byte_offset, size := size }

/-! ## `large_pages/node_large_page.cc` (Linux)

`uintptr_t`, `size_t` and pointers are 64 bits wide; `int` is 32 bits wide. -/

/-- `hps`. -/
def hps : Nat := 2 * 1024 * 1024

/-- `~x` for a 64-bit unsigned `x`. -/
def bitnot64 (x : Nat) : Nat := 2 ^ 64 - 1 - x

/-- `hugepage_align_up`. -/
def hugepage_align_up (addr : Nat) : Nat :=
  ((addr + hps - 1) % 2 ^ 64) &&& bitnot64 (hps - 1)

/-- `hugepage_align_down`. -/
def hugepage_align_down (addr : Nat) : Nat :=
  addr &&& bitnot64 (hps - 1)

/-- `struct dl_iterate_params`. -/
structure dl_iterate_params where
  start : Nat
  end_ : Nat
  reference_sym : Nat
  deriving DecidableEq, Repr

/-- The members of `ElfW(Phdr)` that `FindMapping` reads. -/
structure Phdr where
  p_type : Nat
  p_flags : Nat
  p_vaddr : Nat
  p_memsz : Nat
  deriving DecidableEq, Repr

/-- The members of `struct dl_phdr_info` that `FindMapping` reads;
`dlpi_phnum` is the length of `dlpi_phdr`. -/
structure dl_phdr_info where
  dlpi_addr : Nat
  dlpi_name : List Char
  dlpi_phdr : List Phdr
  deriving DecidableEq, Repr

/-- `PT_LOAD` of `elf.h`. -/
def PT_LOAD : Nat := 1

/-- `PF_X` of `elf.h`. -/
def PF_X : Nat := 1

/-- The `for` loop of `FindMapping`: the `start` and `end` of the first
executable `PT_LOAD` segment that holds the reference symbol. -/
def FindMapping_loop (dlpi_addr reference_sym : Nat) : List Phdr → Option (Nat × Nat)
  | [] => none
  | phdr :: rest =>
    if phdr.p_type = PT_LOAD ∧ phdr.p_flags &&& PF_X ≠ 0 then
      if reference_sym ≥ (dlpi_addr + phdr.p_vaddr) % 2 ^ 64 ∧
          reference_sym ≤ ((dlpi_addr + phdr.p_vaddr) % 2 ^ 64 + phdr.p_memsz) % 2 ^ 64 then
        some ((dlpi_addr + phdr.p_vaddr) % 2 ^ 64,
              ((dlpi_addr + phdr.p_vaddr) % 2 ^ 64 + phdr.p_memsz) % 2 ^ 64)
      else FindMapping_loop dlpi_addr reference_sym rest
    else FindMapping_loop dlpi_addr reference_sym rest

/-- `FindMapping`: the return value and `*data` afterwards. -/
def FindMapping (info : dl_phdr_info) (data : dl_iterate_params) : Int × dl_iterate_params :=
  if info.dlpi_name.headD '\x00' = '\x00' then
    match FindMapping_loop info.dlpi_addr data.reference_sym info.dlpi_phdr with
    | some r => (1, { data with start := r.1, end_ := r.2 })
    | none => (0, data)
  else (0, data)

/-- C library `dl_iterate_phdr`: calls `callback` on each loaded object until
one call returns a value other than 0, and returns the value of the last call. -/
def dl_iterate_phdr
    (callback : dl_phdr_info → dl_iterate_params → Int × dl_iterate_params) :
    List dl_phdr_info → dl_iterate_params → Int × dl_iterate_params
  | [], data => (0, data)
  | info :: rest, data =>
    if (callback info data).1 ≠ 0 then callback info data
    else dl_iterate_phdr callback rest (callback info data).2

/-- `struct text_region`; `from_` and `to_` are its `from` and `to`, as addresses. -/
structure text_region where
  from_ : Nat
  to_ : Nat
  total_hugepages : Int
  found_text_region : Bool
  deriving DecidableEq, Repr

/-- The conversion of a `size_t` to `int`: the value modulo `2^32`, read as a
two's complement number. -/
def size_t_to_int (n : Nat) : Int :=
  if n % 2 ^ 32 < 2 ^ 31 then ((n % 2 ^ 32 : Nat) : Int) else ((n % 2 ^ 32 : Nat) : Int) - 2 ^ 32

/-- `FindNodeTextRegion` on Linux, for the loaded objects `objects` and the
addresses of `__node_text_start` and `__start_lpstub`. The members that the
code leaves unset read as 0. -/
def FindNodeTextRegion (objects : List dl_phdr_info) (node_text_start lpstub_start : Nat) :
    text_region :=
  let nregion : text_region :=
    { from_ := 0, to_ := 0, total_hugepages := 0, found_text_region := false }
  let r := dl_iterate_phdr FindMapping objects
    { start := 0, end_ := 0, reference_sym := node_text_start }
  if r.1 = 1 then
    let dl_start := r.2.reference_sym
    let dl_end :=
      if lpstub_start > dl_start ∧ lpstub_start ≤ r.2.end_ then lpstub_start else r.2.end_
    if dl_start < dl_end then
      let from_ := hugepage_align_up dl_start
      let to_ := hugepage_align_down dl_end
      if from_ < to_ then
        let pagecount := (to_ - from_) / hps
        if pagecount > 0 then
          { from_ := from_, to_ := to_, total_hugepages := size_t_to_int pagecount,
            found_text_region := true }
        else nregion
      else nregion
    else nregion
  else nregion

/-! ## The two threads on one mailbox

`PushPendingMessage` (IO thread) and `SwapBehindLock` (control thread) on the
same queue, step by step. `push_back` and `swap` are not atomic: each reads the
vector and writes it later. `uv_mutex_lock` returns only when no thread holds
the mutex. A schedule names the thread that makes the next step; a thread that
waits in `uv_mutex_lock`, or has finished, makes no step. -/

/-- The two threads. -/
inductive Tid where
  | io
  | control
  deriving DecidableEq, Repr

/-- Where the IO thread is in `PushPendingMessage(queue, message)`. -/
inductive PushPc where
  /-- before `uv_mutex_lock(&queue_lock_)` -/
  | idle
  /-- after `uv_mutex_lock`, before `queue->push_back(message)` -/
  | locked
  /-- inside `push_back`: the vector is read -/
  | read
  /-- after `push_back`: the vector is written, before `uv_mutex_unlock` -/
  | written
  deriving DecidableEq, Repr

/-- Where the control thread is in `SwapBehindLock(queue, output)`. -/
inductive SwapPc where
  /-- before `uv_mutex_lock(&queue_lock_)` -/
  | idle
  /-- after `uv_mutex_lock`, before `(this->*queue).swap(*output)` -/
  | locked
  /-- inside `swap`: the queue is read -/
  | read
  /-- inside `swap`: the queue holds the content of `*output` (empty) -/
  | cleared
  /-- after `swap`: `*output` holds the former queue, before `uv_mutex_unlock` -/
  | assigned
  deriving DecidableEq, Repr

/-- The queue, its mutex, and the two threads: the IO thread still has to push
`io_pending` (the head is the message of the call under way), the control
thread still has to make `ctl_remaining` drains into fresh empty vectors and
has filled `ctl_outputs`. -/
structure Threads where
  queue : List Message
  queue_lock_ : Option Tid
  io_pending : List Message
  io_pc : PushPc
  io_tmp : List Message
  ctl_remaining : Nat
  ctl_pc : SwapPc
  ctl_tmp : List Message
  ctl_outputs : List (List Message)
  deriving DecidableEq, Repr

/-- One step of the IO thread; with `mutex` false the lock and unlock calls do
nothing. -/
def stepIoThread (mutex : Bool) (s : Threads) : Threads :=
  match s.io_pending with
  | [] => s
  | message :: rest =>
    match s.io_pc with
    | .idle =>
      if mutex then
        if s.queue_lock_ = none then { s with queue_lock_ := some .io, io_pc := .locked }
        else s
      else { s with io_pc := .locked }
    | .locked => { s with io_tmp := s.queue, io_pc := .read }
    | .read => { s with queue := s.io_tmp ++ [message], io_pc := .written }
    | .written =>
      { s with queue_lock_ := if mutex then none else s.queue_lock_,
               io_pc := .idle, io_pending := rest }

/-- One step of the control thread; with `mutex` false the lock and unlock
calls do nothing. -/
def stepControlThread (mutex : Bool) (s : Threads) : Threads :=
  if s.ctl_remaining = 0 then s
  else
    match s.ctl_pc with
    | .idle =>
      if mutex then
        if s.queue_lock_ = none then { s with queue_lock_ := some .control, ctl_pc := .locked }
        else s
      else { s with ctl_pc := .locked }
    | .locked => { s with ctl_tmp := s.queue, ctl_pc := .read }
    | .read => { s with queue := [], ctl_pc := .cleared }
    | .cleared => { s with ctl_outputs := s.ctl_outputs ++ [s.ctl_tmp], ctl_pc := .assigned }
    | .assigned =>
      { s with queue_lock_ := if mutex then none else s.queue_lock_,
               ctl_pc := .idle, ctl_remaining := s.ctl_remaining - 1 }

/-- One step of the thread `t`. -/
def stepThread (mutex : Bool) (t : Tid) (s : Threads) : Threads :=
  match t with
  | .io => stepIoThread mutex s
  | .control => stepControlThread mutex s

/-- The steps of a schedule, in order. -/
def runThreads (mutex : Bool) : List Tid → Threads → Threads
  | [], s => s
  | t :: ts, s => runThreads mutex ts (stepThread mutex t s)

/-- The start: the queue holds `queue`, the IO thread is to push `messages`,
the control thread is to drain `drains` times. -/
def startThreads (queue messages : List Message) (drains : Nat) : Threads :=
  { queue := queue, queue_lock_ := none, io_pending := messages, io_pc := .idle, io_tmp := [],
    ctl_remaining := drains, ctl_pc := .idle, ctl_tmp := [], ctl_outputs := [] }

/-! ## Observations on logs and task queues -/

/-- The messages handed to the engine, in order, in a log. -/
def dispatched : List Effect → List Message
  | [] => []
  | .dispatchMessageFromFrontend message :: es => message :: dispatched es
  | _ :: es => dispatched es

/-- The number of `disconnectFrontend` calls in a log. -/
def disconnects (log : List Effect) : Nat := log.count .disconnectFrontend

/-- The value of `connected_` once the `SetConnectedTask`s of a queue have run. -/
def settle : Bool → List Task → Bool
  | c, [] => c
  | c, .DispatchOnInspectorBackendTask :: ts => settle c ts
  | _, .SetConnectedTask c1 :: ts => settle c1 ts

/-- The number of `disconnectFrontend` calls that the `SetConnectedTask`s of a
queue make when they run, from the flag value `c`. -/
def pend : Bool → List Task → Nat
  | _, [] => 0
  | c, .DispatchOnInspectorBackendTask :: ts => pend c ts
  | c, .SetConnectedTask c1 :: ts => (if c && !c1 then 1 else 0) + pend c1 ts

/-- What a stretch of control-thread execution inside a dispatch did: the flag,
the inbound queue and the session are as before, no task was added, the log grew
by `ext`, which dispatches exactly `ms`, and the disconnects made plus those
still pending are the ones pending before. -/
structure Progress (ms : List Message) (a b : Agent) : Prop where
  flag : b.dispatching_messages_ = a.dispatching_messages_
  inbound : b.message_queue_ = a.message_queue_
  socket : b.client_socket_ = a.client_socket_
  tasks : b.foreground_tasks.length ≤ a.foreground_tasks.length
  settled : settle b.connected_ b.foreground_tasks = settle a.connected_ a.foreground_tasks
  grows : ∃ ext, b.log = a.log ++ ext ∧ dispatched ext = ms ∧
    disconnects ext + pend b.connected_ b.foreground_tasks
      = pend a.connected_ a.foreground_tasks

/-- A re-entrant `PostMessages` that finds the dispatching flag set returns at once. -/
def Guarded (post : Agent → Option Agent) : Prop :=
  ∀ a : Agent, a.dispatching_messages_ = true → post a = some a

/-- The agent inside a top-level `PostMessages`, after the flag is set and the
inbound queue is swapped out. -/
def entered (a : Agent) : Agent :=
  { a with dispatching_messages_ := true, message_queue_ := [] }

/-- The end of `PostMessages`: the wake of `data_written_` and the flag reset. -/
def left (b : Agent) : Agent :=
  { b with log := b.log ++ [.uv_async_send .data_written_], dispatching_messages_ := false }

/-- What a stretch of top-level control-thread execution did: as `Progress`,
without the inbound queue and the dispatched messages. -/
structure Advance (a b : Agent) : Prop where
  flag : b.dispatching_messages_ = a.dispatching_messages_
  socket : b.client_socket_ = a.client_socket_
  tasks : b.foreground_tasks.length ≤ a.foreground_tasks.length
  settled : settle b.connected_ b.foreground_tasks = settle a.connected_ a.foreground_tasks
  grows : ∃ ext, b.log = a.log ++ ext ∧
    disconnects ext + pend b.connected_ b.foreground_tasks
      = pend a.connected_ a.foreground_tasks

/-- A nested `runMessageLoopOnPause` that finds the controller paused returns at once. -/
def GuardedPause (nested : PauseState → Outcome) : Prop :=
  ∀ s : PauseState, s.inspector.running_nested_loop_ = true → nested s = .returned s

/-! ## Concrete inputs -/

/-- An engine that, on the message `a`, is interrupted, answers `r` and pumps
a task, and on any other message is interrupted twice. -/
def exampleEngine : Engine := fun _ message =>
  if message = ['a'] then [.InterruptCallback, .sendMessageToFrontend ['r'], .PumpMessageLoop]
  else [.InterruptCallback, .InterruptCallback]

/-- A started agent with two inbound messages. -/
def exampleAgent : Agent :=
  { Agent.started 9229 false with message_queue_ := [['a'], ['b']] }

/-- A connected agent with a live session on the socket 7, one queued outbound
message and one pending dispatch task. -/
def exampleSession : Agent :=
  { Agent.started 9229 false with
      connected_ := true, client_socket_ := some 7,
      outgoing_message_queue_ := [['r']],
      foreground_tasks := [.DispatchOnInspectorBackendTask] }

/-- A controller that is not paused and carries a stale quit, with three
wake-ups to come: the quit is signalled during the second. -/
def examplePause : PauseState :=
  { inspector := { terminated_ := true, running_nested_loop_ := false },
    wakes := [[.runMessageLoopOnPause], [.quitMessageLoopOnPause], []],
    waits := 0, pumped := [] }

/-! ## JSON texts

A reader for the JSON texts made of strings, arrays and objects (numbers and
the literals `true`, `false`, `null` and `\u` escapes are not read: a text with
one of them is refused). It says what "the body is a JSON array holding one
object with these keys" means. -/

/-- A JSON value of the fragment. -/
inductive JSON where
  | str (s : List Char)
  | arr (items : List JSON)
  | obj (members : List (List Char × JSON))

/-- A JSON token. -/
inductive Token where
  | lbracket
  | rbracket
  | lbrace
  | rbrace
  | colon
  | comma
  | str (s : List Char)
  deriving DecidableEq, Repr

/-- Where the tokenizer is: between tokens, inside a string (with the
characters read so far), or right after a backslash inside a string. -/
inductive LexState where
  | value
  | string (s : List Char)
  | escape (s : List Char)
  deriving DecidableEq, Repr

/-- The tokens of a JSON text; `acc` holds the tokens read so far, last first. -/
def lex : List Token → LexState → List Char → Option (List Token)
  | acc, .value, [] => some acc.reverse
  | _, .string _, [] => none
  | _, .escape _, [] => none
  | acc, .value, c :: cs =>
    if c = ' ' ∨ c = '\t' ∨ c = '\n' ∨ c = '\r' then lex acc .value cs
    else if c = '"' then lex acc (.string []) cs
    else if c = '[' then lex (.lbracket :: acc) .value cs
    else if c = ']' then lex (.rbracket :: acc) .value cs
    else if c = '\x7b' then lex (.lbrace :: acc) .value cs
    else if c = '\x7d' then lex (.rbrace :: acc) .value cs
    else if c = ':' then lex (.colon :: acc) .value cs
    else if c = ',' then lex (.comma :: acc) .value cs
    else none
  | acc, .string s, c :: cs =>
    if c = '"' then lex (.str s :: acc) .value cs
    else if c = '\\' then lex acc (.escape s) cs
    else if c.toNat < 32 then none
    else lex acc (.string (s ++ [c])) cs
  | acc, .escape s, c :: cs =>
    if c = '"' ∨ c = '\\' ∨ c = '/' then lex acc (.string (s ++ [c])) cs
    else if c = 'b' then lex acc (.string (s ++ ['\x08'])) cs
    else if c = 'f' then lex acc (.string (s ++ ['\x0c'])) cs
    else if c = 'n' then lex acc (.string (s ++ ['\n'])) cs
    else if c = 'r' then lex acc (.string (s ++ ['\r'])) cs
    else if c = 't' then lex acc (.string (s ++ ['\t'])) cs
    else none

/-- The items of an array after `[` or `,`, up to and with the closing `]`;
`value` reads one value. -/
def parseItems (value : List Token → Option (JSON × List Token)) :
    Nat → List Token → Option (List JSON × List Token)
  | 0, _ => none
  | n + 1, ts =>
    match value ts with
    | some (v, .comma :: rest) => (parseItems value n rest).map fun r => (v :: r.1, r.2)
    | some (v, .rbracket :: rest) => some ([v], rest)
    | _ => none

/-- The members of an object after `{` or `,`, up to and with the closing `}`. -/
def parseMembers (value : List Token → Option (JSON × List Token)) :
    Nat → List Token → Option (List (List Char × JSON) × List Token)
  | n + 1, .str key :: .colon :: ts =>
    match value ts with
    | some (v, .comma :: rest) =>
      (parseMembers value n rest).map fun r => ((key, v) :: r.1, r.2)
    | some (v, .rbrace :: rest) => some ([(key, v)], rest)
    | _ => none
  | _, _ => none

/-- One JSON value at the head of the tokens, and the tokens after it. -/
def parseValue : Nat → List Token → Option (JSON × List Token)
  | 0, _ => none
  | _ + 1, .str s :: ts => some (.str s, ts)
  | _ + 1, .lbracket :: .rbracket :: ts => some (.arr [], ts)
  | n + 1, .lbracket :: ts => (parseItems (parseValue n) n ts).map fun r => (.arr r.1, r.2)
  | _ + 1, .lbrace :: .rbrace :: ts => some (.obj [], ts)
  | n + 1, .lbrace :: ts => (parseMembers (parseValue n) n ts).map fun r => (.obj r.1, r.2)
  | _ + 1, _ => none

/-- The value a JSON text denotes, if it is one. -/
def parseJSON (text : List Char) : Option JSON :=
  match lex [] .value text with
  | none => none
  | some ts =>
    match parseValue ts.length ts with
    | some (v, []) => some v
    | _ => none

/-- A character that stands for itself inside a JSON string. -/
def plainChar (c : Char) : Prop := c ≠ '"' ∧ c ≠ '\\' ∧ 32 ≤ c.toNat

instance plainChar_decidable (c : Char) : Decidable (plainChar c) :=
  inferInstanceAs (Decidable (c ≠ '"' ∧ c ≠ '\\' ∧ 32 ≤ c.toNat))

/-! ## Concrete inputs of the discovery responder -/

/-- A process with pid 1234, node version `v6.2.0` and title `node`. -/
def exampleProcess : Process :=
  { getpid := 1234, getpid_int := by decide, NODE_VERSION := "v6.2.0".toList, process_title := "node".toList }

/-- The text of `HEADERS` before the `%ld` conversion. -/
def HEADERS_head : List Char :=
  ("HTTP/1.0 200 OK\r\n" ++
   "Content-Type: application/json; charset=UTF-8\r\n" ++
   "Cache-Control: no-cache\r\n" ++
   "Content-Length: ").toList

/-- The text of `HEADERS` after the `%ld` conversion. -/
def HEADERS_tail : List Char := "\r\n\r\n".toList

/-- The header that goes with a body of `len` characters. -/
def httpHeader (len : Nat) : List Char := HEADERS_head ++ (decimal len ++ HEADERS_tail)

/-- The text of `VERSION_RESPONSE_TEMPLATE` before its `%s`. -/
def VERSION_head : List Char := "[ \x7b  \"Browser\": \"node.js/".toList

/-- The text of `VERSION_RESPONSE_TEMPLATE` after its `%s`. -/
def VERSION_tail : List Char :=
  ("\",  \"Protocol-Version\": \"1.1\"," ++
   "  \"User-Agent\": \"Mozilla/5.0 (X11; Linux x86_64) AppleWebKit/537.36" ++
   "(KHTML, like Gecko) Chrome/45.0.2446.0 Safari/537.36\"," ++
   "  \"WebKit-Version\": \"537.36 (@198122)\"" ++
   "\x7d ]").toList

/-- The text of `VERSION_RESPONSE_TEMPLATE` with the version `v` in place of `%s`. -/
def versionBody (v : List Char) : List Char := VERSION_head ++ (v ++ VERSION_tail)

/-- The JSON value of the version response: an array holding one object. -/
def versionJSON (v : List Char) : JSON :=
  .arr [.obj [
    ("Browser".toList, .str ("node.js/".toList ++ v)),
    ("Protocol-Version".toList, .str "1.1".toList),
    ("User-Agent".toList, .str ("Mozilla/5.0 (X11; Linux x86_64) AppleWebKit/537.36" ++
      "(KHTML, like Gecko) Chrome/45.0.2446.0 Safari/537.36").toList),
    ("WebKit-Version".toList, .str "537.36 (@198122)".toList)]]

/-- An engine that makes no call back while it handles a message. -/
def quietEngine : Engine := fun _ _ => []

/-- The body of the list response of `exampleProcess`. -/
def exampleListBody : List Char :=
  ("[ \x7b  \"description\": \"node.js instance\"," ++
   "  \"devtoolsFrontendUrl\": " ++
   "\"https://chrome-devtools-frontend.appspot.com/serve_file/" ++
   "@4604d24a75168768584760ba56d175507941852f/inspector.html\"," ++
   "  \"faviconUrl\": \"https://nodejs.org/static/favicon.ico\"," ++
   "  \"id\": \"1234\"," ++
   "  \"title\": \"node\"," ++
   "  \"type\": \"node\"," ++
   "  \"webSocketDebuggerUrl\": \"ws:///node\"" ++
   "\x7d ]").toList

/-- The JSON value of `exampleListBody`. -/
def exampleListJSON : JSON :=
  .arr [.obj [
    ("description".toList, .str "node.js instance".toList),
    ("devtoolsFrontendUrl".toList,
      .str ("https://chrome-devtools-frontend.appspot.com/serve_file/" ++
            "@4604d24a75168768584760ba56d175507941852f/inspector.html").toList),
    ("faviconUrl".toList, .str "https://nodejs.org/static/favicon.ico".toList),
    ("id".toList, .str "1234".toList),
    ("title".toList, .str "node".toList),
    ("type".toList, .str "node".toList),
    ("webSocketDebuggerUrl".toList, .str "ws:///node".toList)]]

/-- The header of the activate acknowledgement. -/
def exampleActivateHeader : List Char :=
  ("HTTP/1.0 200 OK\r\n" ++
   "Content-Type: application/json; charset=UTF-8\r\n" ++
   "Cache-Control: no-cache\r\n" ++
   "Content-Length: 16\r\n" ++
   "\r\n").toList

/-! ## Further observations and concrete inputs -/

/-- The number of `uv_sem_post(&start_sem_)` calls in a log. -/
def semPosts (log : List Effect) : Nat := log.count .uv_sem_post

/-- An agent started in wait mode with a live session on socket 7. -/
def exampleWaiting : Agent :=
  { Agent.started 9229 true with client_socket_ := some 7 }

/-- A process whose title holds a double quote: `a"b`. -/
def exampleQuotedProcess : Process :=
  { getpid := 1234, getpid_int := by decide, NODE_VERSION := "v6.2.0".toList, process_title := "a\"b".toList }

/-- The body of the list response of `exampleQuotedProcess`. -/
def exampleQuotedListBody : List Char :=
  ("[ \x7b  \"description\": \"node.js instance\"," ++
   "  \"devtoolsFrontendUrl\": " ++
   "\"https://chrome-devtools-frontend.appspot.com/serve_file/" ++
   "@4604d24a75168768584760ba56d175507941852f/inspector.html\"," ++
   "  \"faviconUrl\": \"https://nodejs.org/static/favicon.ico\"," ++
   "  \"id\": \"1234\"," ++
   "  \"title\": \"a\"b\"," ++
   "  \"type\": \"node\"," ++
   "  \"webSocketDebuggerUrl\": \"ws:///node\"" ++
   "\x7d ]").toList

/-- The segment that `dl_iterate_phdr(FindMapping, &dl_params)` leaves in
`dl_params` for the reference symbol `reference_sym`. -/
def foundSegment (objects : List dl_phdr_info) (reference_sym : Nat) : dl_iterate_params :=
  (dl_iterate_phdr FindMapping objects
    { start := 0, end_ := 0, reference_sym := reference_sym }).2

/-- The main program with one executable segment `[0, 0xa00000]`. -/
def exampleObjects : List dl_phdr_info :=
  [{ dlpi_addr := 0, dlpi_name := [],
     dlpi_phdr := [{ p_type := 1, p_flags := 5, p_vaddr := 0, p_memsz := 0xa00000 }] }]

/-- The main program with one executable segment of `2^52` bytes from `0x200000`. -/
def exampleHugeObjects : List dl_phdr_info :=
  [{ dlpi_addr := 0, dlpi_name := [],
     dlpi_phdr := [{ p_type := 1, p_flags := 5, p_vaddr := 0x200000, p_memsz := 2 ^ 52 }] }]

/-- The messages the mailbox accounts for: the drained vectors in drain order,
the vector a `swap` under way has taken out of the queue, and the queue. -/
def accounted (s : Threads) : List Message :=
  s.ctl_outputs.flatten ++ (if s.ctl_pc = .cleared then s.ctl_tmp else []) ++ s.queue

/-- The messages whose `push_back` has not yet written the queue. -/
def unpushed (s : Threads) : List Message :=
  if s.io_pc = .written then s.io_pending.tail else s.io_pending

/-- What holds of the threads at every moment when both use the mutex: the
mutex is held exactly by a thread inside its critical section, a thread that
has read the queue still sees what it read, and the accounted messages followed
by the unpushed ones are `all`. -/
structure ThreadsInv (all : List Message) (s : Threads) : Prop where
  io_lock : s.io_pc ≠ .idle ↔ s.queue_lock_ = some .io
  ctl_lock : s.ctl_pc ≠ .idle ↔ s.queue_lock_ = some .control
  io_busy : s.io_pc ≠ .idle → s.io_pending ≠ []
  ctl_busy : s.ctl_pc ≠ .idle → s.ctl_remaining ≠ 0
  io_read : s.io_pc = .read → s.io_tmp = s.queue
  ctl_read : s.ctl_pc = .read → s.ctl_tmp = s.queue
  conserved : accounted s ++ unpushed s = all

/-! ## Mailbox lemmas -/

@[simp] theorem queue_setQueue (agent : Agent) (queue : QueueMember) (v : List Message) :
    (agent.setQueue queue v).queue queue = v := by
  cases queue <;> rfl

theorem runMailbox_spec (queue : QueueMember) (ops : List MailboxOp) :
    ∀ agent : Agent,
      ((runMailbox queue agent ops).2).flatten ++ (runMailbox queue agent ops).1.queue queue
        = agent.queue queue ++ pushed ops := by
  induction ops with
  | nil => intro agent; simp [runMailbox, pushed]
  | cons op ops ih =>
    intro agent
    cases op with
    | push message =>
      simp only [runMailbox, pushed]
      rw [ih]
      simp [PushPendingMessage]
    | drain =>
      simp only [runMailbox, pushed, List.flatten_cons, List.append_assoc]
      rw [ih]
      simp [SwapBehindLock]

/-! ## Lemmas on dispatch -/

theorem dispatched_append (l1 l2 : List Effect) :
    dispatched (l1 ++ l2) = dispatched l1 ++ dispatched l2 := by
  induction l1 with
  | nil => rfl
  | cons e es ih => cases e <;> simp [dispatched, ih]

theorem disconnects_append (l1 l2 : List Effect) :
    disconnects (l1 ++ l2) = disconnects l1 + disconnects l2 := by
  simp [disconnects]

theorem progress_refl (a : Agent) : Progress [] a a :=
  ⟨rfl, rfl, rfl, le_rfl, rfl, [], by simp, rfl, by simp [disconnects]⟩

theorem progress_trans {ms1 ms2 : List Message} {a b c : Agent}
    (h1 : Progress ms1 a b) (h2 : Progress ms2 b c) : Progress (ms1 ++ ms2) a c := by
  obtain ⟨e1, hl1, hd1, hp1⟩ := h1.grows
  obtain ⟨e2, hl2, hd2, hp2⟩ := h2.grows
  refine ⟨h2.flag.trans h1.flag, h2.inbound.trans h1.inbound, h2.socket.trans h1.socket,
    h2.tasks.trans h1.tasks, h2.settled.trans h1.settled, e1 ++ e2, ?_, ?_, ?_⟩
  · rw [hl2, hl1, List.append_assoc]
  · rw [dispatched_append, hd1, hd2]
  · rw [disconnects_append]; omega

theorem progress_emit_dispatch (a : Agent) (m : Message) :
    Progress [m] a (a.emit (.dispatchMessageFromFrontend m)) :=
  ⟨rfl, rfl, rfl, le_rfl, rfl, [.dispatchMessageFromFrontend m], rfl, rfl,
    by simp [disconnects, Agent.emit]⟩

theorem progress_write (a : Agent) (m : Message) : Progress [] a (Write a m) :=
  ⟨rfl, rfl, rfl, le_rfl, rfl, [.uv_async_send .io_thread_req_], rfl, rfl,
    by simp [disconnects, Write, Agent.emit, PushPendingMessage, Agent.setQueue]⟩

theorem progress_quit (a : Agent) : Progress [] a (quitMessageLoopOnPause a) :=
  ⟨rfl, rfl, rfl, le_rfl, rfl, [.quitMessageLoopOnPause], rfl, rfl,
    by simp [disconnects, quitMessageLoopOnPause]⟩

theorem SetConnected_same (a : Agent) (c : Bool) (h : a.connected_ = c) :
    SetConnected a c = a := by
  simp [SetConnected, h]

theorem SetConnected_true (a : Agent) (h : a.connected_ = false) :
    SetConnected a true =
      { a with connected_ := true,
               log := a.log ++ [.fprintf_Debugger_attached, .connectFrontend] } := by
  simp [SetConnected, h, Agent.emit]

theorem SetConnected_false (a : Agent) (h : a.connected_ = true) :
    SetConnected a false =
      { a with connected_ := false,
               inspector_ := a.inspector_.quitMessageLoopOnPause,
               log := a.log ++ (if a.shutting_down_ then []
                                else [.PrintDebuggerReadyMessage a.port_])
                        ++ [.quitMessageLoopOnPause, .disconnectFrontend] } := by
  cases hs : a.shutting_down_ <;>
    simp [SetConnected, h, hs, Agent.emit, quitMessageLoopOnPause]

theorem progress_setConnected (a : Agent) (ts : List Task) (c : Bool)
    (h : a.foreground_tasks = .SetConnectedTask c :: ts) :
    Progress [] a (SetConnected { a with foreground_tasks := ts } c) := by
  by_cases hc : a.connected_ = c
  · rw [SetConnected_same { a with foreground_tasks := ts } c hc]
    exact ⟨rfl, rfl, rfl, by simp [h], by simp [h, settle, hc], [], by simp, rfl,
      by simp [h, pend, hc, disconnects]⟩
  · cases c with
    | true =>
      have hc0 : a.connected_ = false := by simpa using hc
      rw [SetConnected_true { a with foreground_tasks := ts } hc0]
      exact ⟨rfl, rfl, rfl, by simp [h], by simp [h, settle],
        [.fprintf_Debugger_attached, .connectFrontend], rfl, rfl,
        by simp [h, pend, disconnects]⟩
    | false =>
      have hc1 : a.connected_ = true := by simpa using hc
      rw [SetConnected_false { a with foreground_tasks := ts } hc1]
      refine ⟨rfl, rfl, rfl, by simp [h], by simp [h, settle],
        (if a.shutting_down_ then [] else [.PrintDebuggerReadyMessage a.port_])
          ++ [.quitMessageLoopOnPause, .disconnectFrontend], ?_, ?_, ?_⟩
      · exact (List.append_assoc _ _ _)
      · cases a.shutting_down_ <;> rfl
      · cases a.shutting_down_ <;> simp [h, pend, disconnects, hc1]


theorem PostMessages_guard (E : Engine) (n : Nat) : Guarded (PostMessages E n) := by
  intro a h
  cases n <;> simp [PostMessages, h]

theorem PumpMessageLoop_nested (post : Agent → Option Agent) (hp : Guarded post) (a : Agent)
    (h : a.dispatching_messages_ = true) :
    ∃ b, PumpMessageLoop post a = some b ∧ Progress [] a b := by
  unfold PumpMessageLoop
  cases ht : a.foreground_tasks with
  | nil => exact ⟨a, rfl, progress_refl a⟩
  | cons t ts =>
    cases t with
    | DispatchOnInspectorBackendTask =>
      refine ⟨{ a with foreground_tasks := ts }, hp _ h, rfl, rfl, rfl, by simp [ht],
        by simp [ht, settle], [], by simp, rfl, by simp [ht, pend, disconnects]⟩
    | SetConnectedTask c => exact ⟨_, rfl, progress_setConnected a ts c ht⟩

theorem runCall_nested (post : Agent → Option Agent) (hp : Guarded post) (a : Agent)
    (h : a.dispatching_messages_ = true) (c : Call) :
    ∃ b, runCall post a c = some b ∧ Progress [] a b := by
  cases c with
  | InterruptCallback => exact ⟨a, hp a h, progress_refl a⟩
  | PumpMessageLoop => exact PumpMessageLoop_nested post hp a h
  | sendMessageToFrontend m => exact ⟨_, rfl, progress_write a m⟩
  | quitMessageLoopOnPause => exact ⟨_, rfl, progress_quit a⟩

theorem runCalls_nested (post : Agent → Option Agent) (hp : Guarded post) (cs : List Call) :
    ∀ a : Agent, a.dispatching_messages_ = true →
      ∃ b, forEach (runCall post) a cs = some b ∧ Progress [] a b := by
  induction cs with
  | nil => intro a _; exact ⟨a, rfl, progress_refl a⟩
  | cons c cs ih =>
    intro a h
    obtain ⟨b, hb, hab⟩ := runCall_nested post hp a h c
    obtain ⟨d, hd, hbd⟩ := ih b (hab.flag.trans h)
    exact ⟨d, by simp [forEach, hb, hd], by simpa using progress_trans hab hbd⟩

theorem dispatch_nested (E : Engine) (post : Agent → Option Agent) (hp : Guarded post)
    (a : Agent) (h : a.dispatching_messages_ = true) (m : Message) :
    ∃ b, dispatchMessageFromFrontend E post a m = some b ∧ Progress [m] a b := by
  obtain ⟨b, hb, hab⟩ := runCalls_nested post hp
    (E (a.emit (.dispatchMessageFromFrontend m)).log m)
    (a.emit (.dispatchMessageFromFrontend m)) h
  exact ⟨b, hb, by simpa using progress_trans (progress_emit_dispatch a m) hab⟩

theorem dispatchAll_nested (E : Engine) (post : Agent → Option Agent) (hp : Guarded post)
    (ms : List Message) :
    ∀ a : Agent, a.dispatching_messages_ = true →
      ∃ b, forEach (dispatchMessageFromFrontend E post) a ms = some b ∧ Progress ms a b := by
  induction ms with
  | nil => intro a _; exact ⟨a, rfl, progress_refl a⟩
  | cons m ms ih =>
    intro a h
    obtain ⟨b, hb, hab⟩ := dispatch_nested E post hp a h m
    obtain ⟨d, hd, hbd⟩ := ih b (hab.flag.trans h)
    exact ⟨d, by simp [forEach, hb, hd], by simpa using progress_trans hab hbd⟩

theorem PostMessages_top (E : Engine) (n : Nat) (a : Agent)
    (h : a.dispatching_messages_ = false) :
    ∃ b, PostMessages E (n + 1) a = some (left b)
      ∧ Progress a.message_queue_ (entered a) b := by
  obtain ⟨b, hb, hab⟩ := dispatchAll_nested E (PostMessages E n) (PostMessages_guard E n)
    a.message_queue_ (entered a) rfl
  refine ⟨b, ?_, hab⟩
  simp only [PostMessages, h, SwapBehindLock, Agent.setQueue, Agent.queue]
  simp only [entered] at hb
  simp [hb, left, Agent.emit]

/-! ## Lemmas on the foreground queue -/

theorem progress_advance {ms : List Message} {a b : Agent} (h : Progress ms a b) :
    Advance a b := by
  obtain ⟨ext, hl, _, hp⟩ := h.grows
  exact ⟨h.flag, h.socket, h.tasks, h.settled, ext, hl, hp⟩

theorem advance_refl (a : Agent) : Advance a a := progress_advance (progress_refl a)

theorem advance_trans {a b c : Agent} (h1 : Advance a b) (h2 : Advance b c) : Advance a c := by
  obtain ⟨e1, hl1, hp1⟩ := h1.grows
  obtain ⟨e2, hl2, hp2⟩ := h2.grows
  refine ⟨h2.flag.trans h1.flag, h2.socket.trans h1.socket, h2.tasks.trans h1.tasks,
    h2.settled.trans h1.settled, e1 ++ e2, ?_, ?_⟩
  · rw [hl2, hl1, List.append_assoc]
  · rw [disconnects_append]; omega

theorem PostMessages_advance (E : Engine) (n : Nat) (a : Agent) :
    ∃ b, PostMessages E (n + 1) a = some b ∧ Advance a b := by
  cases h : a.dispatching_messages_ with
  | true => exact ⟨a, PostMessages_guard E (n + 1) a h, advance_refl a⟩
  | false =>
    obtain ⟨b, hb, hab⟩ := PostMessages_top E n a h
    obtain ⟨ext, hl, _, hp⟩ := hab.grows
    refine ⟨left b, hb, ?_, hab.socket, hab.tasks, hab.settled,
      ext ++ [.uv_async_send .data_written_], ?_, ?_⟩
    · simp [left, h]
    · simp only [left, hl, entered, List.append_assoc]
    · rw [disconnects_append]
      simpa [left, entered, disconnects] using hp

theorem PumpMessageLoop_advance (E : Engine) (n : Nat) (a : Agent) (t : Task) (ts : List Task)
    (h : a.foreground_tasks = t :: ts) :
    ∃ b, PumpMessageLoop (PostMessages E (n + 1)) a = some b ∧ Advance a b
      ∧ b.foreground_tasks.length ≤ ts.length := by
  unfold PumpMessageLoop
  rw [h]
  cases t with
  | DispatchOnInspectorBackendTask =>
    obtain ⟨b, hb, hab⟩ := PostMessages_advance E n { a with foreground_tasks := ts }
    refine ⟨b, hb, ?_, hab.tasks⟩
    have h0 : Advance a { a with foreground_tasks := ts } :=
      ⟨rfl, rfl, by simp [h], by simp [h, settle], [], by simp,
        by simp [h, pend, disconnects]⟩
    exact advance_trans h0 hab
  | SetConnectedTask c =>
    have hp := progress_setConnected a ts c h
    refine ⟨_, rfl, progress_advance hp, ?_⟩
    by_cases hc : a.connected_ = c
    · rw [SetConnected_same { a with foreground_tasks := ts } c hc]
    · cases c with
      | true =>
        rw [SetConnected_true { a with foreground_tasks := ts } (by simpa using hc)]
      | false =>
        rw [SetConnected_false { a with foreground_tasks := ts } (by simpa using hc)]

theorem drainForeground_advance (E : Engine) :
    ∀ (fuel : Nat) (a : Agent), a.foreground_tasks.length < fuel →
      ∃ b, drainForeground E fuel a = some b ∧ Advance a b ∧ b.foreground_tasks = [] := by
  intro fuel
  induction fuel with
  | zero => intro a h; omega
  | succ n ih =>
    intro a h
    cases ht : a.foreground_tasks with
    | nil => exact ⟨a, by simp [drainForeground, ht], advance_refl a, ht⟩
    | cons t ts =>
      rw [ht] at h
      simp only [List.length_cons] at h
      obtain ⟨k, rfl⟩ : ∃ k, n = k + 1 := ⟨n - 1, by omega⟩
      obtain ⟨b, hb, hab, hlen⟩ := PumpMessageLoop_advance E k a t ts ht
      obtain ⟨d, hd, hbd, hnil⟩ := ih b (by omega)
      refine ⟨d, ?_, advance_trans hab hbd, hnil⟩
      rw [drainForeground]
      have hne : a.foreground_tasks.isEmpty = false := by simp [ht]
      simp only [hne, Bool.false_eq_true, if_false, hb, Option.some_bind]
      exact hd

theorem settle_pend_snoc (ts : List Task) :
    ∀ c : Bool,
      settle c (ts ++ [.SetConnectedTask false]) = false
      ∧ pend c (ts ++ [.SetConnectedTask false])
          = pend c ts + (if settle c ts then 1 else 0) := by
  induction ts with
  | nil => intro c; cases c <;> simp [settle, pend]
  | cons t ts ih =>
    intro c
    cases t with
    | DispatchOnInspectorBackendTask => simpa [settle, pend] using ih c
    | SetConnectedTask c1 =>
      obtain ⟨h1, h2⟩ := ih c1
      refine ⟨by simpa [settle] using h1, ?_⟩
      have e1 : pend c (Task.SetConnectedTask c1 :: ts ++ [Task.SetConnectedTask false])
          = (if c && !c1 then 1 else 0) + pend c1 (ts ++ [Task.SetConnectedTask false]) := rfl
      have e2 : pend c (Task.SetConnectedTask c1 :: ts)
          = (if c && !c1 then 1 else 0) + pend c1 ts := rfl
      have e3 : settle c (Task.SetConnectedTask c1 :: ts) = settle c1 ts := rfl
      rw [e1, e2, e3, h2]
      omega

/-! ## Lemmas on the pause loop -/

theorem runMessageLoopOnPause_guard (n : Nat) : GuardedPause (runMessageLoopOnPause n) := by
  intro s h
  cases n <;> simp [runMessageLoopOnPause, h]

theorem pumpTasks_paused (nested : PauseState → Outcome) (hg : GuardedPause nested)
    (w : Wake) :
    ∀ (t : Bool) (wakes : List Wake) (waits : Nat) (pumped : List PumpCall),
      pumpTasks nested ⟨⟨t, true⟩, wakes, waits, pumped⟩ w
        = .returned ⟨⟨t || w.contains .quitMessageLoopOnPause, true⟩, wakes, waits,
            pumped ++ w⟩ := by
  induction w with
  | nil => intro t wakes waits pumped; simp [pumpTasks]
  | cons c cs ih =>
    intro t wakes waits pumped
    cases c with
    | quitMessageLoopOnPause =>
      simp [pumpTasks, V8NodeInspector.quitMessageLoopOnPause, ih]
    | runMessageLoopOnPause =>
      simp only [pumpTasks]
      rw [hg _ rfl]
      simp [ih]

theorem pauseLoop_returns (nested : PauseState → Outcome) (hg : GuardedPause nested)
    (w : Wake) (rest : List Wake) (hw : PumpCall.quitMessageLoopOnPause ∈ w)
    (ws : List Wake) :
    ∀ (fuel waits : Nat) (pumped : List PumpCall),
      (∀ v ∈ ws, PumpCall.quitMessageLoopOnPause ∉ v) → ws.length < fuel →
      pauseLoop nested fuel ⟨⟨false, true⟩, ws ++ w :: rest, waits, pumped⟩
        = .returned ⟨⟨true, true⟩, rest, waits + ws.length + 1,
            pumped ++ ws.flatten ++ w⟩ := by
  induction ws with
  | nil =>
    intro fuel waits pumped _ hf
    obtain ⟨n, rfl⟩ : ∃ n, fuel = n + 1 := ⟨fuel - 1, by simp at hf; omega⟩
    simp [pauseLoop, pumpTasks_paused nested hg, hw]
  | cons v vs ih =>
    intro fuel waits pumped hq hf
    obtain ⟨n, rfl⟩ : ∃ n, fuel = n + 1 := ⟨fuel - 1, by omega⟩
    have hv : PumpCall.quitMessageLoopOnPause ∉ v := hq v (by simp)
    simp only [pauseLoop, List.cons_append, pumpTasks_paused nested hg]
    have hv0 : v.contains PumpCall.quitMessageLoopOnPause = false := by simpa using hv
    simp only [hv0, Bool.or_false, Bool.false_eq_true, if_false]
    rw [ih n (waits + 1) (pumped ++ v) (fun u hu => hq u (by simp [hu]))
      (by simp at hf; omega)]
    simp [Nat.add_assoc, Nat.add_comm 1]

theorem pauseLoop_blocks (nested : PauseState → Outcome) (hg : GuardedPause nested)
    (ws : List Wake) :
    ∀ (fuel waits : Nat) (pumped : List PumpCall),
      (∀ v ∈ ws, PumpCall.quitMessageLoopOnPause ∉ v) → ws.length < fuel →
      pauseLoop nested fuel ⟨⟨false, true⟩, ws, waits, pumped⟩
        = .blocked ⟨⟨false, true⟩, [], waits + ws.length, pumped ++ ws.flatten⟩ := by
  induction ws with
  | nil =>
    intro fuel waits pumped _ hf
    obtain ⟨n, rfl⟩ : ∃ n, fuel = n + 1 := ⟨fuel - 1, by simp at hf; omega⟩
    simp [pauseLoop]
  | cons v vs ih =>
    intro fuel waits pumped hq hf
    obtain ⟨n, rfl⟩ : ∃ n, fuel = n + 1 := ⟨fuel - 1, by omega⟩
    have hv : PumpCall.quitMessageLoopOnPause ∉ v := hq v (by simp)
    simp only [pauseLoop, pumpTasks_paused nested hg]
    have hv0 : v.contains PumpCall.quitMessageLoopOnPause = false := by simpa using hv
    simp only [hv0, Bool.or_false, Bool.false_eq_true, if_false]
    rw [ih n (waits + 1) (pumped ++ v) (fun u hu => hq u (by simp [hu]))
      (by simp at hf; omega)]
    simp [Nat.add_assoc, Nat.add_comm 1]

/-! ## Lemmas on the IO thread callbacks -/

theorem OnRemoteDataIO_eof_live (agent : Agent) (socket : Socket) (b : List Char)
    (h : agent.client_socket_ = some socket) :
    OnRemoteDataIO agent socket 0 b =
      { agent with client_socket_ := none,
                   foreground_tasks := agent.foreground_tasks ++ [.SetConnectedTask false],
                   log := agent.log ++ [.uv_async_send .data_written_, .uv_cond_broadcast] } := by
  simp [ OnRemoteDataIO, h, CallOnForegroundThread, Agent.emit]

theorem OnRemoteDataIO_eof_stale (agent : Agent) (socket : Socket) (b : List Char)
    (h : agent.client_socket_ ≠ some socket) :
    OnRemoteDataIO agent socket 0 b = agent.emit .uv_cond_broadcast := by
  simp [ OnRemoteDataIO, h]

theorem OnRemoteDataIO_error (agent : Agent) (socket : Socket) (read : Int) (b : List Char)
    (h : read < 0) :
    OnRemoteDataIO agent socket read b =
      { agent with
          client_socket_ := if agent.client_socket_ = some socket then none
                            else agent.client_socket_,
          log := agent.log ++ [.inspector_close socket, .uv_cond_broadcast] } := by
  have h1 : ¬ read > 0 := by omega
  by_cases hs : agent.client_socket_ = some socket <;>
    simp [ OnRemoteDataIO, h, h1, hs, DisconnectAndDisposeIO, Agent.emit]

theorem OnRemoteDataIO_data_inbound (agent : Agent) (socket : Socket) (read : Int)
    (b : List Char) (h : 0 < read) :
    ( OnRemoteDataIO agent socket read b).message_queue_
        = agent.message_queue_ ++ [b.take read.toNat]
    ∧ ( OnRemoteDataIO agent socket read b).client_socket_ = agent.client_socket_ := by
  have h1 : read > 0 := h
  by_cases hw : (agent.wait_ && (find (b.take read.toNat) Runtime_run).isSome) = true <;>
    simp [ OnRemoteDataIO, h1, hw, PushPendingMessage, Agent.setQueue, Agent.queue,
      CallOnForegroundThread, Agent.emit]

theorem writeAll_spec (socket : Socket) (ms : List Message) :
    ∀ a : Agent,
      ms.foldl (fun a message => a.emit (.inspector_write socket message)) a
        = { a with log := a.log ++ ms.map (.inspector_write socket) } := by
  induction ms with
  | nil => intro a; simp
  | cons m ms ih =>
    intro a
    rw [List.foldl_cons, ih]
    simp [Agent.emit]

theorem WriteCbIO_live (agent : Agent) (socket : Socket)
    (h : agent.client_socket_ = some socket) :
    WriteCbIO agent =
      { agent with outgoing_message_queue_ := [],
                   log := agent.log
                     ++ agent.outgoing_message_queue_.map (.inspector_write socket) } := by
  simp [ WriteCbIO, h, SwapBehindLock, Agent.setQueue, Agent.queue, writeAll_spec]

/-! ## Lemmas on C strings -/

theorem char_toNat_inj (a b : Char) : a.toNat = b.toNat ↔ a = b :=
  ⟨fun h => Char.ext (UInt32.ext h), fun h => by rw [h]⟩

theorem char_toNat_eq_zero (a : Char) : a.toNat = 0 ↔ a = '\x00' :=
  char_toNat_inj a '\x00'

theorem char_diff_eq_zero (a b : Char) : ((a.toNat : Int) - (b.toNat : Int) = 0) ↔ a = b := by
  rw [← char_toNat_inj]; omega

theorem strncmp_succ (s1 s2 : List Char) (n : Nat) :
    strncmp s1 s2 (n + 1) =
      if s1.headD '\x00' ≠ s2.headD '\x00' then
        ((s1.headD '\x00').toNat : Int) - ((s2.headD '\x00').toNat : Int)
      else if s1.headD '\x00' = '\x00' then 0
      else strncmp s1.tail s2.tail n := rfl

theorem cstr_nil : cstr [] = [] := rfl

theorem cstr_cons (c : Char) (cs : List Char) :
    cstr (c :: cs) = if c = '\x00' then [] else c :: cstr cs := by
  by_cases h : c = '\x00' <;> simp [cstr, List.takeWhile, h]

theorem strncmp_exact (lit : List Char) :
    ∀ p : List Char, '\x00' ∉ lit →
      (strncmp lit p (lit.length + 1) = 0 ↔ cstr p = lit) := by
  induction lit with
  | nil =>
    intro p _
    rw [strncmp_succ]
    cases p with
    | nil => simp [cstr_nil]
    | cons c cs =>
      by_cases hc : c = '\x00'
      · simp [cstr_cons, hc]
      · have hc1 : ¬ '\x00' = c := fun h => hc h.symm
        simp [cstr_cons, hc, hc1, char_toNat_eq_zero]
  | cons a l ih =>
    intro p hl
    have ha : a ≠ '\x00' := fun h => hl (by simp [h])
    have hl1 : '\x00' ∉ l := fun h => hl (by simp [h])
    rw [List.length_cons, strncmp_succ]
    cases p with
    | nil => simp [cstr_nil, ha, char_toNat_eq_zero]
    | cons c cs =>
      by_cases hac : a = c
      · subst hac
        simp [cstr_cons, ha, ih cs hl1]
      · by_cases hc : c = '\x00'
        · simp [cstr_cons, hac, hc, ha, char_toNat_eq_zero]
        · have hca : ¬ c = a := fun h => hac h.symm
          simp [cstr_cons, hac, hca, hc, char_diff_eq_zero]

theorem decimalFuel_irrel :
    ∀ (f1 f2 n : Nat), n ≤ f1 → n ≤ f2 → decimalFuel f1 n = decimalFuel f2 n := by
  intro f1
  induction f1 with
  | zero =>
    intro f2 n h1 _
    have hn : n = 0 := by omega
    subst hn
    cases f2 <;> simp [decimalFuel]
  | succ k ih =>
    intro f2 n h1 h2
    cases f2 with
    | zero =>
      have hn : n = 0 := by omega
      subst hn
      simp [decimalFuel]
    | succ m =>
      simp only [decimalFuel]
      by_cases hlt : n < 10
      · simp [hlt]
      · simp only [hlt, if_false]
        rw [ih m (n / 10) (by omega) (by omega)]

theorem decimal_eq (n : Nat) :
    decimal n = if n < 10 then [Nat.digitChar n]
                else decimal (n / 10) ++ [Nat.digitChar (n % 10)] := by
  unfold decimal
  cases n with
  | zero => simp [decimalFuel]
  | succ k =>
    simp only [decimalFuel]
    by_cases hlt : k + 1 < 10
    · simp [hlt]
    · simp only [hlt, if_false]
      rw [decimalFuel_irrel k ((k + 1) / 10) ((k + 1) / 10) (by omega) le_rfl]

theorem digitChar_spec (d : Nat) (h : d < 10) :
    (Nat.digitChar d).isDigit = true ∧ (Nat.digitChar d).toNat - '0'.toNat = d := by
  interval_cases d <;> exact ⟨by decide, by decide⟩

theorem decimal_digits (n : Nat) : ∀ c ∈ decimal n, c.isDigit = true := by
  induction n using Nat.strong_induction_on with
  | _ n ih =>
    rw [decimal_eq]
    by_cases hlt : n < 10
    · simp only [hlt, if_true, List.mem_singleton]
      rintro c rfl
      exact (digitChar_spec n hlt).1
    · simp only [hlt, if_false, List.mem_append, List.mem_singleton]
      rintro c (hc | rfl)
      · exact ih (n / 10) (by omega) c hc
      · exact (digitChar_spec (n % 10) (by omega)).1

theorem decimal_ne_nil (n : Nat) : decimal n ≠ [] := by
  rw [decimal_eq]
  by_cases hlt : n < 10 <;> simp [hlt]

theorem decimal_length (e : Nat) :
    ∀ n : Nat, n < 10 ^ (e + 1) → (decimal n).length ≤ e + 1 := by
  induction e with
  | zero =>
    intro n h
    rw [decimal_eq]
    have : n < 10 := by simpa using h
    simp [this]
  | succ k ih =>
    intro n h
    rw [decimal_eq]
    by_cases hlt : n < 10
    · simp [hlt]
    · simp only [hlt, if_false, List.length_append, List.length_singleton]
      have : n / 10 < 10 ^ (k + 1) := by
        rw [Nat.div_lt_iff_lt_mul (by decide)]
        calc n < 10 ^ (k + 1 + 1) := h
          _ = 10 ^ (k + 1) * 10 := by ring
      have := ih (n / 10) this
      omega

theorem digitsValue_stop (acc : Nat) (s : List Char)
    (h : ∀ c ∈ s.head?, c.isDigit = false) : digitsValue acc s = acc := by
  cases s with
  | nil => rfl
  | cons c cs =>
    have hc : c.isDigit = false := h c (by simp)
    simp [digitsValue, hc]

theorem digitsValue_decimal (n : Nat) :
    ∀ (acc : Nat) (s : List Char),
      digitsValue acc (decimal n ++ s)
        = digitsValue (acc * 10 ^ (decimal n).length + n) s := by
  induction n using Nat.strong_induction_on with
  | _ n ih =>
    intro acc s
    rw [decimal_eq]
    by_cases hlt : n < 10
    · obtain ⟨h1, h2⟩ := digitChar_spec n hlt
      have h3 : (Nat.digitChar n).toNat - 48 = n := h2
      simp [hlt, digitsValue, h1, h3]
    · obtain ⟨h1, h2⟩ := digitChar_spec (n % 10) (by omega)
      simp only [hlt, if_false, List.append_assoc, List.singleton_append,
        List.length_append, List.length_singleton]
      rw [ih (n / 10) (by omega)]
      simp only [digitsValue, h1, if_true, h2]
      congr 1
      rw [pow_succ]
      have := Nat.div_add_mod n 10
      nlinarith [Nat.div_add_mod n 10]

theorem decimalValue_digits_head (c : Char) (t : List Char) (h : c.isDigit = true) :
    decimalValue (c :: t) = (digitsValue 0 (c :: t) : Int) := by
  have hs : isspace c = false := by
    by_contra hne
    have hsp : isspace c = true := by simpa using hne
    simp only [isspace, Bool.or_eq_true, decide_eq_true_eq] at hsp
    rcases hsp with ((((rfl | rfl) | rfl) | rfl) | rfl) | rfl <;> exact absurd h (by decide)
  have hm : c ≠ '-' := by rintro rfl; exact absurd h (by decide)
  have hp : c ≠ '+' := by rintro rfl; exact absurd h (by decide)
  unfold decimalValue
  have hd : List.dropWhile isspace (c :: t) = c :: t := by simp [List.dropWhile, hs]
  rw [hd]
  split
  · rename_i heq; exact absurd (List.cons.inj heq).1 hm
  · rename_i heq; exact absurd (List.cons.inj heq).1 hp
  · rfl

theorem decimalValue_decimalInt (v : Int) (s : List Char)
    (h : ∀ c ∈ s.head?, c.isDigit = false) : decimalValue (decimalInt v ++ s) = v := by
  have key : digitsValue 0 (decimal v.natAbs ++ s) = v.natAbs := by
    rw [digitsValue_decimal, digitsValue_stop _ s h]; simp
  unfold decimalInt
  by_cases hv : v < 0
  · simp only [hv, if_true, List.cons_append]
    have : decimalValue ('-' :: (decimal v.natAbs ++ s))
        = -(digitsValue 0 (decimal v.natAbs ++ s) : Int) := by
      rfl
    rw [this, key]; omega
  · simp only [hv, if_false]
    obtain ⟨c, t, hct⟩ : ∃ c t, decimal v.natAbs = c :: t := by
      cases hd : decimal v.natAbs with
      | nil => exact absurd hd (decimal_ne_nil _)
      | cons c t => exact ⟨c, t, rfl⟩
    have hc : c.isDigit = true := decimal_digits v.natAbs c (by simp [hct])
    have e : decimal v.natAbs ++ s = c :: (t ++ s) := by simp [hct]
    rw [e, decimalValue_digits_head c (t ++ s) hc, ← e, key]; omega

theorem atoi_in_range (s : List Char)
    (h : INT_MIN ≤ decimalValue s ∧ decimalValue s ≤ (INT_MAX : Int)) :
    atoi s = decimalValue s := by
  obtain ⟨h1, h2⟩ := h
  simp only [INT_MIN, INT_MAX, Nat.cast_ofNat] at h1 h2
  unfold atoi strtol long_to_int LONG_MIN LONG_MAX
  rw [min_eq_right (by omega), max_eq_right (by omega)]
  omega

theorem atoi_decimalInt (v : Int) (s : List Char)
    (hv : INT_MIN ≤ v ∧ v ≤ (INT_MAX : Int))
    (h : ∀ c ∈ s.head?, c.isDigit = false) : atoi (decimalInt v ++ s) = v := by
  have key := decimalValue_decimalInt v s h
  rw [atoi_in_range _ (by rw [key]; exact hv), key]

/-! ## Lemmas on the discovery responder -/

theorem as_long_small (len : Nat) (h : len < 2 ^ 63) : as_long len = (len : Int) := by
  unfold as_long
  have h1 : len % 2 ^ 64 = len := Nat.mod_eq_of_lt (by omega)
  rw [h1]
  have h2 : len < 9223372036854775808 := by norm_num at h; exact h
  simp [h2]

theorem decimalInt_natCast (n : Nat) : decimalInt (n : Int) = decimal n := by
  unfold decimalInt
  have : ¬ ((n : Int) < 0) := by omega
  simp [this]

theorem printf_HEADERS (v : Int) :
    printf_format HEADERS [.ld v] = HEADERS_head ++ (decimalInt v ++ HEADERS_tail) := rfl

theorem httpHeader_length (len : Nat) (h : len < 2 ^ 63) :
    (httpHeader len).length ≤ 128 := by
  have h1 : (decimal len).length ≤ 18 + 1 :=
    decimal_length 18 len (lt_of_lt_of_le h (by norm_num))
  have h2 : HEADERS_head.length = 105 := by decide
  have h3 : HEADERS_tail.length = 4 := by decide
  simp only [httpHeader, List.length_append, h2, h3]
  omega

theorem SendHttpResponse_spec (socket : Socket) (response : List Char) (len : Nat)
    (h : len < 2 ^ 63) :
    SendHttpResponse socket response len =
      [.inspector_write socket (httpHeader len),
       .inspector_write socket (response.take len)] := by
  have hl := httpHeader_length len h
  have hs : sizeof_literal HEADERS + 20 - 1 = 132 := by decide
  unfold SendHttpResponse snprintf
  simp only [hs, as_long_small len h, printf_HEADERS, decimalInt_natCast]
  have e1 : (HEADERS_head ++ (decimal len ++ HEADERS_tail)).take 132
      = HEADERS_head ++ (decimal len ++ HEADERS_tail) :=
    List.take_of_length_le (by simpa [httpHeader] using (by omega : (httpHeader len).length ≤ 132))
  rw [e1, List.take_length]
  rfl

theorem beq_zero_iff (z : Int) : (z == 0) = true ↔ z = 0 := by simp

theorem PATH_VERSION_nul : '\x00' ∉ PATH_VERSION := by decide

theorem DEVTOOLS_PATH_nul : '\x00' ∉ DEVTOOLS_PATH := by decide

theorem RespondToGet_activate (P : Process) (socket : Socket) (d : List Char) :
    RespondToGet P socket (PATH_ACTIVATE ++ d) =
      if atoi d = P.getpid then
        some (true, SendHttpResponse socket TARGET_ACTIVATED TARGET_ACTIVATED.length)
      else some (false, []) := by
  have h1 : (strncmp PATH_VERSION (PATH_ACTIVATE ++ d) (sizeof_literal PATH_VERSION) == 0)
      = false := rfl
  have h2 : (strncmp PATH_LIST (PATH_ACTIVATE ++ d) (sizeof_literal PATH_LIST) == 0)
      = false := rfl
  have h3 : (strncmp PATH (PATH_ACTIVATE ++ d) (sizeof_literal PATH) == 0) = false := rfl
  have h4 : (strncmp (PATH_ACTIVATE ++ d) PATH_ACTIVATE (sizeof_literal PATH_ACTIVATE - 1) == 0)
      = true := rfl
  have h5 : (PATH_ACTIVATE ++ d).drop (sizeof_literal PATH_ACTIVATE - 1) = d := rfl
  have h6 : sizeof_literal TARGET_ACTIVATED - 1 = TARGET_ACTIVATED.length := rfl
  unfold RespondToGet
  rw [h1, h2, h3, h4, h5, h6]
  by_cases hp : atoi d = P.getpid <;> simp [hp]

theorem cstr_plain (v : List Char) (h : ∀ c ∈ v, plainChar c) : cstr v = v := by
  induction v with
  | nil => rfl
  | cons c cs ih =>
    have hc : c ≠ '\x00' := by
      rintro rfl
      exact absurd (h '\x00' (by simp)).2.2 (by decide)
    rw [cstr_cons, if_neg hc, ih (fun d hd => h d (by simp [hd]))]

theorem lex_plain (v : List Char) (h : ∀ c ∈ v, plainChar c) :
    ∀ (acc : List Token) (s rest : List Char),
      lex acc (.string s) (v ++ rest) = lex acc (.string (s ++ v)) rest := by
  induction v with
  | nil => intro acc s rest; simp
  | cons c cs ih =>
    intro acc s rest
    obtain ⟨h1, h2, h3⟩ := h c (by simp)
    have h4 : ¬ c.toNat < 32 := by omega
    rw [List.cons_append, lex]
    simp only [h1, h2, h4, if_false]
    rw [ih (fun d hd => h d (by simp [hd]))]
    simp

set_option maxRecDepth 8000 in
theorem printf_VERSION (v : List Char) :
    printf_format VERSION_RESPONSE_TEMPLATE [.s v] = versionBody (cstr v) := rfl

set_option maxRecDepth 8000 in
theorem VERSION_tail_length : VERSION_tail.length = 192 := by decide

set_option maxRecDepth 8000 in
theorem VERSION_buffer_size : sizeof_literal VERSION_RESPONSE_TEMPLATE + 128 = 348 := by
  decide

theorem versionBody_length (v : List Char) : (versionBody v).length = v.length + 217 := by
  have h1 : VERSION_head.length = 25 := by decide
  simp only [versionBody, List.length_append, h1, VERSION_tail_length]
  omega

set_option maxRecDepth 8000 in
theorem SendVersionResponse_spec (P : Process) (socket : Socket)
    (hplain : ∀ c ∈ P.NODE_VERSION, plainChar c) (hlen : P.NODE_VERSION.length ≤ 130) :
    SendVersionResponse P socket =
      some [.inspector_write socket (httpHeader (versionBody P.NODE_VERSION).length),
            .inspector_write socket (versionBody P.NODE_VERSION)] := by
  have hl := versionBody_length P.NODE_VERSION
  unfold SendVersionResponse snprintf
  simp only [VERSION_buffer_size, printf_VERSION, cstr_plain _ hplain]
  have e1 : (versionBody P.NODE_VERSION).take (348 - 1) = versionBody P.NODE_VERSION :=
    List.take_of_length_le (by omega)
  have e2 : (versionBody P.NODE_VERSION).length < 348 := by omega
  rw [e1, if_pos e2, SendHttpResponse_spec _ _ _ (by omega), List.take_length]

set_option maxRecDepth 8000 in
theorem lex_VERSION_head (v : List Char) :
    lex [] .value (versionBody v)
      = lex [.colon, .str "Browser".toList, .lbrace, .lbracket] (.string "node.js/".toList)
          (v ++ VERSION_tail) := rfl

set_option maxRecDepth 8000 in
theorem lex_VERSION_tail (v : List Char) :
    lex [.colon, .str "Browser".toList, .lbrace, .lbracket]
        (.string ("node.js/".toList ++ v)) VERSION_tail
      = some [.lbracket, .lbrace,
          .str "Browser".toList, .colon, .str ("node.js/".toList ++ v), .comma,
          .str "Protocol-Version".toList, .colon, .str "1.1".toList, .comma,
          .str "User-Agent".toList, .colon,
          .str ("Mozilla/5.0 (X11; Linux x86_64) AppleWebKit/537.36" ++
            "(KHTML, like Gecko) Chrome/45.0.2446.0 Safari/537.36").toList, .comma,
          .str "WebKit-Version".toList, .colon, .str "537.36 (@198122)".toList,
          .rbrace, .rbracket] := rfl

theorem versionBody_json (v : List Char) (hplain : ∀ c ∈ v, plainChar c) :
    parseJSON (versionBody v) = some (versionJSON v) := by
  unfold parseJSON
  rw [lex_VERSION_head, lex_plain v hplain, lex_VERSION_tail]
  rfl

set_option maxRecDepth 8000 in
theorem LIST_buffer_size : sizeof_literal LIST_RESPONSE_TEMPLATE + 4096 = 4416 := by decide

set_option maxRecDepth 8000 in
theorem SendVersionResponse_shape (P : Process) (socket : Socket) (writes : List Effect)
    (h : SendVersionResponse P socket = some writes) :
    ∃ (len : Nat) (body : List Char),
      writes = [.inspector_write socket (httpHeader len), .inspector_write socket body] := by
  unfold SendVersionResponse at h
  simp only [VERSION_buffer_size] at h
  split at h
  · rename_i hlt
    rw [SendHttpResponse_spec _ _ _ (by omega)] at h
    exact ⟨_, _, (Option.some.inj h).symm⟩
  · exact absurd h (by simp)

set_option maxRecDepth 8000 in
theorem SendTargentsListResponse_shape (P : Process) (socket : Socket) (writes : List Effect)
    (h : SendTargentsListResponse P socket = some writes) :
    ∃ (len : Nat) (body : List Char),
      writes = [.inspector_write socket (httpHeader len), .inspector_write socket body] := by
  unfold SendTargentsListResponse at h
  simp only [LIST_buffer_size] at h
  split at h
  · rename_i hlt
    rw [SendHttpResponse_spec _ _ _ (by omega)] at h
    exact ⟨_, _, (Option.some.inj h).symm⟩
  · exact absurd h (by simp)

/-! ## Lemmas on the wait for the frontend -/

theorem find_isSome (needle : List Char) :
    ∀ str : List Char, (find str needle).isSome = true ↔ needle <:+: str := by
  intro str
  induction str with
  | nil =>
    cases needle with
    | nil => simp [find]
    | cons c cs => simp [find]
  | cons c cs ih =>
    rw [find, List.infix_cons_iff]
    by_cases hp : needle.isPrefixOf (c :: cs) = true
    · simp only [hp, if_true, Option.isSome_some, true_iff]
      exact Or.inl (List.isPrefixOf_iff_prefix.1 hp)
    · have hp1 : ¬ needle <+: c :: cs := fun h => hp (List.isPrefixOf_iff_prefix.2 h)
      simp only [hp, if_false, Option.isSome_map', ih, hp1, false_or, Bool.false_eq_true]

theorem OnRemoteDataIO_data_trigger (agent : Agent) (socket : Socket) (read : Int)
    (b : List Char) (hr : 0 < read) (hw : agent.wait_ = true)
    (hc : Runtime_run <:+: b.take read.toNat) :
    OnRemoteDataIO agent socket read b =
      { agent with
          wait_ := false,
          message_queue_ := agent.message_queue_ ++ [b.take read.toNat],
          foreground_tasks := agent.foreground_tasks ++ [.DispatchOnInspectorBackendTask],
          log := agent.log ++ [.uv_sem_post, .RequestInterrupt,
                               .uv_async_send .data_written_, .uv_cond_broadcast] } := by
  have h1 : read > 0 := hr
  have h2 : (find (b.take read.toNat) Runtime_run).isSome = true :=
    (find_isSome Runtime_run _).2 hc
  simp [ OnRemoteDataIO, h1, hw, h2, PushPendingMessage, Agent.setQueue, Agent.queue,
    CallOnForegroundThread, Agent.emit]

theorem OnRemoteDataIO_data_plain (agent : Agent) (socket : Socket) (read : Int)
    (b : List Char) (hr : 0 < read)
    (h : ¬ (agent.wait_ = true ∧ Runtime_run <:+: b.take read.toNat)) :
    OnRemoteDataIO agent socket read b =
      { agent with
          message_queue_ := agent.message_queue_ ++ [b.take read.toNat],
          foreground_tasks := agent.foreground_tasks ++ [.DispatchOnInspectorBackendTask],
          log := agent.log ++ [.RequestInterrupt,
                               .uv_async_send .data_written_, .uv_cond_broadcast] } := by
  have h1 : read > 0 := hr
  have h2 : (agent.wait_ && (find (b.take read.toNat) Runtime_run).isSome) = false := by
    rw [Bool.eq_false_iff]
    intro hb
    rw [Bool.and_eq_true, find_isSome] at hb
    exact h hb
  have h3 : ((PushPendingMessage agent .message_queue_ (b.take read.toNat)).wait_ &&
      (find (b.take read.toNat) Runtime_run).isSome) = false := h2
  simp only [ OnRemoteDataIO, h1, if_true, h3, Bool.false_eq_true, if_false]
  simp [PushPendingMessage, Agent.setQueue, Agent.queue, CallOnForegroundThread, Agent.emit]

theorem semPosts_append (l1 l2 : List Effect) :
    semPosts (l1 ++ l2) = semPosts l1 + semPosts l2 := by
  simp [semPosts]

theorem OnRemoteDataIO_semaphore (agent : Agent) (socket : Socket) (read : Int)
    (b : List Char) :
    semPosts ( OnRemoteDataIO agent socket read b).log
        + (if ( OnRemoteDataIO agent socket read b).wait_ then 1 else 0)
      = semPosts agent.log + (if agent.wait_ then 1 else 0)
    ∧ semPosts agent.log ≤ semPosts ( OnRemoteDataIO agent socket read b).log := by
  rcases lt_trichotomy read 0 with hneg | hzero | hpos
  · rw [OnRemoteDataIO_error agent socket read b hneg]
    simp [semPosts]
  · subst hzero
    by_cases hs : agent.client_socket_ = some socket
    · rw [OnRemoteDataIO_eof_live agent socket b hs]
      simp [semPosts]
    · rw [OnRemoteDataIO_eof_stale agent socket b hs]
      simp [semPosts, Agent.emit]
  · by_cases h : agent.wait_ = true ∧ Runtime_run <:+: b.take read.toNat
    · rw [OnRemoteDataIO_data_trigger agent socket read b hpos h.1 h.2]
      simp [semPosts, h.1]
    · rw [OnRemoteDataIO_data_plain agent socket read b hpos h]
      simp [semPosts]

theorem receiveAll_semaphore (rs : List RemoteRead) :
    ∀ agent : Agent,
      semPosts (receiveAll agent rs).log + (if (receiveAll agent rs).wait_ then 1 else 0)
        = semPosts agent.log + (if agent.wait_ then 1 else 0)
      ∧ semPosts agent.log ≤ semPosts (receiveAll agent rs).log := by
  induction rs with
  | nil => intro agent; exact ⟨rfl, le_rfl⟩
  | cons r rs ih =>
    intro agent
    obtain ⟨h1, h2⟩ := OnRemoteDataIO_semaphore agent r.socket r.read r.b
    obtain ⟨h3, h4⟩ := ih ( OnRemoteDataIO agent r.socket r.read r.b)
    exact ⟨h3.trans h1, h2.trans h4⟩

/-! ## Lemmas on huge page alignment -/

theorem testBit_bitnot64_hps (i : Nat) :
    (bitnot64 (hps - 1)).testBit i = (decide (i < 64) && !decide (i < 21)) := by
  have e : bitnot64 (hps - 1) = 2 ^ 64 - ((2 ^ 21 - 1) + 1) := by decide
  rw [e, Nat.testBit_two_pow_sub_succ (by decide), Nat.testBit_two_pow_sub_one]

theorem and_bitnot64_hps (a : Nat) (h : a < 2 ^ 64) :
    a &&& bitnot64 (hps - 1) = a / hps * hps := by
  have e : a / hps * hps = (a >>> 21) <<< 21 := by
    rw [Nat.shiftLeft_eq, Nat.shiftRight_eq_div_pow]; rfl
  rw [e]
  apply Nat.eq_of_testBit_eq
  intro i
  rw [Nat.testBit_and, testBit_bitnot64_hps, Nat.testBit_shiftLeft, Nat.testBit_shiftRight]
  by_cases h21 : i < 21
  · have : ¬ i ≥ 21 := by omega
    simp [h21, this]
  · have h21' : i ≥ 21 := by omega
    have e2 : 21 + (i - 21) = i := by omega
    by_cases h64 : i < 64
    · simp [h21, h21', h64, e2]
    · have hlt : a < 2 ^ i :=
        lt_of_lt_of_le h (Nat.pow_le_pow_right (by decide) (by omega))
      simp [h21, h21', h64, e2, Nat.testBit_lt_two_pow hlt]

theorem hugepage_align_down_eq (a : Nat) (h : a < 2 ^ 64) :
    hugepage_align_down a = a / 2097152 * 2097152 := by
  unfold hugepage_align_down
  rw [and_bitnot64_hps a h]; rfl

theorem hugepage_align_up_eq (a : Nat) (h : a + hps ≤ 2 ^ 64) :
    hugepage_align_up a = (a + 2097151) / 2097152 * 2097152 := by
  have h1 : a + hps - 1 < 2 ^ 64 := by
    have : hps = 2097152 := rfl
    omega
  unfold hugepage_align_up
  rw [Nat.mod_eq_of_lt h1, and_bitnot64_hps _ h1]; rfl

theorem FindMapping_loop_spec (dlpi_addr reference_sym : Nat) (phdrs : List Phdr)
    (r : Nat × Nat) (h : FindMapping_loop dlpi_addr reference_sym phdrs = some r) :
    r.1 ≤ reference_sym ∧ reference_sym ≤ r.2 ∧ r.2 < 2 ^ 64 := by
  induction phdrs with
  | nil => simp [FindMapping_loop] at h
  | cons phdr rest ih =>
    rw [FindMapping_loop] at h
    split at h
    · split at h
      · rename_i _ hin
        have := Option.some.inj h
        subst this
        exact ⟨hin.1, hin.2, Nat.mod_lt _ (by decide)⟩
      · exact ih h
    · exact ih h

theorem FindMapping_spec (info : dl_phdr_info) (data : dl_iterate_params) :
    (FindMapping info data).2.reference_sym = data.reference_sym
    ∧ ((FindMapping info data).1 ≠ 0 →
        (FindMapping info data).2.start ≤ data.reference_sym
        ∧ data.reference_sym ≤ (FindMapping info data).2.end_
        ∧ (FindMapping info data).2.end_ < 2 ^ 64)
    ∧ ((FindMapping info data).1 = 0 → (FindMapping info data).2 = data) := by
  unfold FindMapping
  split
  · cases hl : FindMapping_loop info.dlpi_addr data.reference_sym info.dlpi_phdr with
    | none => simp
    | some r =>
      have := FindMapping_loop_spec _ _ _ r hl
      simpa using this
  · simp

theorem dl_iterate_phdr_spec (objects : List dl_phdr_info) :
    ∀ data : dl_iterate_params,
      (dl_iterate_phdr FindMapping objects data).1 ≠ 0 →
        (dl_iterate_phdr FindMapping objects data).2.reference_sym = data.reference_sym
        ∧ (dl_iterate_phdr FindMapping objects data).2.start ≤ data.reference_sym
        ∧ data.reference_sym ≤ (dl_iterate_phdr FindMapping objects data).2.end_
        ∧ (dl_iterate_phdr FindMapping objects data).2.end_ < 2 ^ 64 := by
  induction objects with
  | nil => intro data h; simp [dl_iterate_phdr] at h
  | cons info rest ih =>
    intro data h
    obtain ⟨h1, h2, h3⟩ := FindMapping_spec info data
    rw [dl_iterate_phdr] at h ⊢
    by_cases hc : (FindMapping info data).1 ≠ 0
    · rw [if_pos hc] at h ⊢
      exact ⟨h1, h2 hc⟩
    · rw [if_neg hc] at h ⊢
      have hz : (FindMapping info data).1 = 0 := by simpa using hc
      rw [h3 hz] at h ⊢
      exact ih data h

/-! ## Lemmas on `AdditionalConfig` -/

theorem AdditionalConfig_eq (L byte_offset size : Nat)
    (ho : byte_offset < 2 ^ 32) (hs : size < 2 ^ 32) :
    RandomBytesTraits.AdditionalConfig L byte_offset size =
      if byte_offset + size < 2 ^ 32 ∧ byte_offset + size ≤ L then
        (if INT_MAX < size then .Nothing_ERR_OUT_OF_RANGE
         else .Just_true { buffer := byte_offset, size := size })
      else .check_failed := by
  unfold RandomBytesTraits.AdditionalConfig
  by_cases hw : byte_offset + size < 2 ^ 32
  · rw [Nat.mod_eq_of_lt hw]
    split_ifs <;> first | rfl | (exfalso; omega)
  · have hm : (byte_offset + size) % 2 ^ 32 = byte_offset + size - 2 ^ 32 := by
      rw [Nat.mod_eq_sub_mod (by omega), Nat.mod_eq_of_lt (by omega)]
    rw [hm]
    split_ifs <;> first | rfl | (exfalso; omega)



theorem ThreadsInv_start (queue messages : List Message) (drains : Nat) :
    ThreadsInv (queue ++ messages) (startThreads queue messages drains) := by
  constructor <;> simp [startThreads, accounted, unpushed]

theorem ThreadsInv_ioThread (all : List Message) (s : Threads) (h : ThreadsInv all s) :
    ThreadsInv all (stepIoThread true s) := by
  obtain ⟨h1, h2, h3, h4, h5, h6, h7⟩ := h
  obtain ⟨queue, lock, pending, pc, tmp, remaining, cpc, ctmp, outputs⟩ := s
  simp only [accounted, unpushed] at *
  cases pending with
  | nil => exact ⟨h1, h2, h3, h4, h5, h6, h7⟩
  | cons message rest =>
    cases pc with
    | idle =>
      by_cases hl : lock = none
      · subst hl
        have hc : cpc = .idle := by
          by_contra hne
          exact absurd (h2.1 hne) (by simp)
        subst hc
        constructor <;> simp_all [stepIoThread, accounted, unpushed]
      · have : stepIoThread true ⟨queue, lock, message :: rest, .idle, tmp, remaining, cpc, ctmp, outputs⟩
            = ⟨queue, lock, message :: rest, .idle, tmp, remaining, cpc, ctmp, outputs⟩ := by
          simp [stepIoThread, hl]
        rw [this]
        exact ⟨h1, h2, h3, h4, h5, h6, h7⟩
    | locked =>
      have hl : lock = some .io := h1.1 (by simp)
      subst hl
      have hc : cpc = .idle := by
        by_contra hne
        exact absurd (h2.1 hne) (by simp)
      subst hc
      constructor <;> simp_all [stepIoThread, accounted, unpushed]
    | read =>
      have hl : lock = some .io := h1.1 (by simp)
      subst hl
      have hc : cpc = .idle := by
        by_contra hne
        exact absurd (h2.1 hne) (by simp)
      subst hc
      have ht : tmp = queue := h5 rfl
      subst ht
      constructor <;> simp_all [stepIoThread, accounted, unpushed]
    | written =>
      have hl : lock = some .io := h1.1 (by simp)
      subst hl
      have hc : cpc = .idle := by
        by_contra hne
        exact absurd (h2.1 hne) (by simp)
      subst hc
      constructor <;> simp_all [stepIoThread, accounted, unpushed]

theorem ThreadsInv_controlThread (all : List Message) (s : Threads) (h : ThreadsInv all s) :
    ThreadsInv all (stepControlThread true s) := by
  obtain ⟨h1, h2, h3, h4, h5, h6, h7⟩ := h
  obtain ⟨queue, lock, pending, pc, tmp, remaining, cpc, ctmp, outputs⟩ := s
  simp only [accounted, unpushed] at *
  by_cases hr : remaining = 0
  · have : stepControlThread true ⟨queue, lock, pending, pc, tmp, remaining, cpc, ctmp, outputs⟩
        = ⟨queue, lock, pending, pc, tmp, remaining, cpc, ctmp, outputs⟩ := by
      simp [stepControlThread, hr]
    rw [this]
    exact ⟨h1, h2, h3, h4, h5, h6, h7⟩
  · cases cpc with
    | idle =>
      by_cases hl : lock = none
      · subst hl
        have hc : pc = .idle := by
          by_contra hne
          exact absurd (h1.1 hne) (by simp)
        subst hc
        constructor <;> simp_all [stepControlThread, accounted, unpushed]
      · have : stepControlThread true ⟨queue, lock, pending, pc, tmp, remaining, .idle, ctmp, outputs⟩
            = ⟨queue, lock, pending, pc, tmp, remaining, .idle, ctmp, outputs⟩ := by
          simp [stepControlThread, hl, hr]
        rw [this]
        exact ⟨h1, h2, h3, h4, h5, h6, h7⟩
    | locked =>
      have hl : lock = some .control := h2.1 (by simp)
      subst hl
      have hc : pc = .idle := by
        by_contra hne
        exact absurd (h1.1 hne) (by simp)
      subst hc
      constructor <;> simp_all [stepControlThread, accounted, unpushed]
    | read =>
      have hl : lock = some .control := h2.1 (by simp)
      subst hl
      have hc : pc = .idle := by
        by_contra hne
        exact absurd (h1.1 hne) (by simp)
      subst hc
      have ht : ctmp = queue := h6 rfl
      subst ht
      constructor <;> simp_all [stepControlThread, accounted, unpushed]
    | cleared =>
      have hl : lock = some .control := h2.1 (by simp)
      subst hl
      have hc : pc = .idle := by
        by_contra hne
        exact absurd (h1.1 hne) (by simp)
      subst hc
      constructor <;> simp_all [stepControlThread, accounted, unpushed]
    | assigned =>
      have hl : lock = some .control := h2.1 (by simp)
      subst hl
      have hc : pc = .idle := by
        by_contra hne
        exact absurd (h1.1 hne) (by simp)
      subst hc
      constructor <;> simp_all [stepControlThread, accounted, unpushed]

theorem ThreadsInv_run (all : List Message) (schedule : List Tid) (s : Threads)
    (h : ThreadsInv all s) : ThreadsInv all (runThreads true schedule s) := by
  induction schedule generalizing s with
  | nil => exact h
  | cons t ts ih =>
    cases t with
    | io => exact ih _ (ThreadsInv_ioThread all s h)
    | control => exact ih _ (ThreadsInv_controlThread all s h)

/-- Without the mutex a schedule loses a message: the push of `b` lands between
the read and the write of the swap. -/
theorem runThreads_unlocked_loses :
    runThreads false [.control, .control, .io, .io, .io, .io, .control, .control, .control]
        (startThreads [['a']] [['b']] 1)
      = { queue := [], queue_lock_ := none, io_pending := [], io_pc := .idle, io_tmp := [['a']],
          ctl_remaining := 0, ctl_pc := .idle, ctl_tmp := [['a']], ctl_outputs := [[['a']]] } := by
  decide


/-! ## Claims -/

/-- C1: for every interleaving of pushes and drains on one mailbox queue, the
drained vectors concatenated in drain order, followed by what is still queued,
are the initial content followed by the pushed messages in push order (so, from
an empty queue, exactly the pushed messages); and a message pushed after a
drain is what the next drain returns. -/
theorem C1_mailbox_fifo (queue : QueueMember) (agent : Agent) (ops : List MailboxOp)
    (message : Message) :
    ((runMailbox queue agent ops).2).flatten ++ (runMailbox queue agent ops).1.queue queue
        = agent.queue queue ++ pushed ops
    ∧ ((runMailbox queue (agent.setQueue queue []) ops).2).flatten
          ++ (runMailbox queue (agent.setQueue queue []) ops).1.queue queue
        = pushed ops
    ∧ (SwapBehindLock
          (PushPendingMessage (SwapBehindLock agent queue []).1 queue message) queue []).2
        = [message] := by
  refine ⟨runMailbox_spec queue ops agent, ?_, ?_⟩
  · rw [runMailbox_spec]; simp
  · simp [SwapBehindLock, PushPendingMessage]

/-- C2: `SwapBehindLock` with an empty output vector returns the queue content
unchanged in the output, leaves that queue empty, and does not touch the other
queue. -/
theorem C2_swap_returns_queue (agent : Agent) (queue other : QueueMember) (hne : other ≠ queue) :
    (SwapBehindLock agent queue []).2 = agent.queue queue
    ∧ (SwapBehindLock agent queue []).1.queue queue = []
    ∧ (SwapBehindLock agent queue []).1.queue other = agent.queue other := by
  refine ⟨rfl, by simp [SwapBehindLock], ?_⟩
  cases queue <;> cases other <;> first | exact absurd rfl hne | rfl

/-- C2 at a concrete agent: draining the inbound queue leaves the outbound one. -/
theorem C2_swap_returns_queue_witness :
    QueueMember.outgoing_message_queue_ ≠ QueueMember.message_queue_
    ∧ (SwapBehindLock exampleAgent .message_queue_ []).2 = [['a'], ['b']]
    ∧ (SwapBehindLock exampleAgent .message_queue_ []).1.queue .message_queue_ = []
    ∧ (SwapBehindLock exampleAgent .message_queue_ []).1.queue .outgoing_message_queue_
        = exampleAgent.queue .outgoing_message_queue_ :=
  ⟨by decide, C2_swap_returns_queue exampleAgent .message_queue_ .outgoing_message_queue_
    (by decide)⟩

/-- C3: whatever the engine does while it handles a message (re-entrant
`PostMessages` calls through an interrupt or a nested pump included), a
top-level `PostMessages` returns, and what it handed to the engine during the
call is exactly the inbound queue content, each message once and in queue
order; the inbound queue is empty and the flag is clear afterwards. -/
theorem C3_PostMessages_dispatches_once (E : Engine) (fuel : Nat) (agent : Agent)
    (h : agent.dispatching_messages_ = false) :
    ∃ agent1 ext, PostMessages E (fuel + 1) agent = some agent1
      ∧ agent1.log = agent.log ++ ext
      ∧ dispatched ext = agent.message_queue_
      ∧ agent1.message_queue_ = []
      ∧ agent1.dispatching_messages_ = false := by
  obtain ⟨b, hb, hab⟩ := PostMessages_top E fuel agent h
  obtain ⟨ext, hl, hd, _⟩ := hab.grows
  refine ⟨left b, ext ++ [.uv_async_send .data_written_], hb, ?_, ?_, ?_, rfl⟩
  · simp only [left, hl, entered, List.append_assoc]
  · rw [dispatched_append, hd]; simp [dispatched]
  · simpa [left, entered] using hab.inbound

/-- C3 at a concrete agent and a re-entrant engine. -/
theorem C3_PostMessages_dispatches_once_witness :
    exampleAgent.dispatching_messages_ = false
    ∧ ∃ agent1 ext, PostMessages exampleEngine 1 exampleAgent = some agent1
      ∧ agent1.log = exampleAgent.log ++ ext
      ∧ dispatched ext = exampleAgent.message_queue_
      ∧ agent1.message_queue_ = []
      ∧ agent1.dispatching_messages_ = false :=
  ⟨rfl, C3_PostMessages_dispatches_once exampleEngine 0 exampleAgent rfl⟩

/-- C4: `PostMessages` invoked while the dispatching flag is set returns the
agent unchanged: both queues, the flag, the log (so no dispatch and no wake)
and everything else are as before, for every engine and every fuel. -/
theorem C4_PostMessages_nested_noop (E : Engine) (fuel : Nat) (agent : Agent)
    (h : agent.dispatching_messages_ = true) :
    PostMessages E fuel agent = some agent :=
  PostMessages_guard E fuel agent h

/-- C4 at a concrete agent with two inbound messages and the flag set. -/
theorem C4_PostMessages_nested_noop_witness :
    ({ exampleAgent with dispatching_messages_ := true }).dispatching_messages_ = true
    ∧ PostMessages exampleEngine 0 { exampleAgent with dispatching_messages_ := true }
        = some { exampleAgent with dispatching_messages_ := true } :=
  ⟨rfl, C4_PostMessages_nested_noop exampleEngine 0
    { exampleAgent with dispatching_messages_ := true } rfl⟩

/-- C5: with a live session on `s1`, a completed second upgrade on `s2` leaves
the agent unchanged (session, queues, connected flag, task queue and log: no
read is started, no `SetConnectedTask` is posted); data read afterwards is
still appended to the inbound queue and the session stays; an outbound wake
afterwards writes the outbound queue, in order, to `s1`. -/
theorem C5_second_upgrade_ignored (agent : Agent) (s1 s2 : Socket) (read : Int)
    (b : List Char) (h : agent.client_socket_ = some s1) (hr : 0 < read) :
    OnInspectorConnectionIO agent s2 = agent
    ∧ ( OnRemoteDataIO ( OnInspectorConnectionIO agent s2) s1 read b).message_queue_
        = agent.message_queue_ ++ [b.take read.toNat]
    ∧ ( OnRemoteDataIO ( OnInspectorConnectionIO agent s2) s1 read b).client_socket_
        = some s1
    ∧ ( WriteCbIO ( OnInspectorConnectionIO agent s2)).log
        = agent.log ++ agent.outgoing_message_queue_.map (.inspector_write s1)
    ∧ ( WriteCbIO ( OnInspectorConnectionIO agent s2)).outgoing_message_queue_ = []
    ∧ ( WriteCbIO ( OnInspectorConnectionIO agent s2)).client_socket_ = some s1 := by
  have h0 : OnInspectorConnectionIO agent s2 = agent := by
    simp [ OnInspectorConnectionIO, h]
  rw [h0]
  obtain ⟨hq, hs⟩ := OnRemoteDataIO_data_inbound agent s1 read b hr
  refine ⟨rfl, hq, hs.trans h, ?_, ?_, ?_⟩ <;> rw [WriteCbIO_live agent s1 h]
  exact h

/-- C5 at a concrete session on socket 7 and a second socket 8. -/
theorem C5_second_upgrade_ignored_witness :
    exampleSession.client_socket_ = some 7 ∧ (0 : Int) < 2
    ∧ OnInspectorConnectionIO exampleSession 8 = exampleSession
    ∧ ( OnRemoteDataIO ( OnInspectorConnectionIO exampleSession 8) 7 2
          ['x', 'y', 'z']).message_queue_
        = exampleSession.message_queue_ ++ [['x', 'y', 'z'].take (2 : Int).toNat]
    ∧ ( OnRemoteDataIO ( OnInspectorConnectionIO exampleSession 8) 7 2
          ['x', 'y', 'z']).client_socket_ = some 7
    ∧ ( WriteCbIO ( OnInspectorConnectionIO exampleSession 8)).log
        = exampleSession.log
          ++ exampleSession.outgoing_message_queue_.map (.inspector_write 7)
    ∧ ( WriteCbIO ( OnInspectorConnectionIO exampleSession 8)).outgoing_message_queue_ = []
    ∧ ( WriteCbIO ( OnInspectorConnectionIO exampleSession 8)).client_socket_ = some 7 :=
  ⟨rfl, by decide,
    C5_second_upgrade_ignored exampleSession 7 8 2 ['x', 'y', 'z'] rfl (by decide)⟩

/-- C6: `SetConnected(c)` on an agent whose connected flag is already `c`
returns the agent unchanged (no state change, nothing logged, so no call to the
engine); after `SetConnected(c)` the flag is `c`; hence a second
`SetConnected(c)` changes nothing. -/
theorem C6_SetConnected_idempotent (agent : Agent) (c : Bool) :
    (agent.connected_ = c → SetConnected agent c = agent)
    ∧ (SetConnected agent c).connected_ = c
    ∧ SetConnected (SetConnected agent c) c = SetConnected agent c := by
  have h1 : (SetConnected agent c).connected_ = c := by
    by_cases hc : agent.connected_ = c
    · rw [SetConnected_same agent c hc]; exact hc
    · cases c with
      | true => rw [SetConnected_true agent (by simpa using hc)]
      | false => rw [SetConnected_false agent (by simpa using hc)]
  exact ⟨SetConnected_same agent c, h1, SetConnected_same _ c h1⟩

/-- C6 at a concrete connected agent. -/
theorem C6_SetConnected_idempotent_witness :
    SetConnected exampleSession true = exampleSession
    ∧ SetConnected (SetConnected exampleSession false) false
        = SetConnected exampleSession false :=
  ⟨(C6_SetConnected_idempotent exampleSession true).1 rfl,
    (C6_SetConnected_idempotent exampleSession false).2.2⟩

/-- C7: on a live session whose already-posted requests leave the agent
connected, the first EOF on the session socket clears the session and posts one
`SetConnectedTask(false)`; a second EOF on the same socket only broadcasts the
pause condition (no session change, no task); and when the posted tasks have
all run, for every engine, the engine has been told to disconnect exactly once
more than the `pend` disconnects that the requests posted before the two EOFs
make by themselves (none when no `SetConnectedTask(false)` was pending), and
the agent is disconnected. -/
theorem C7_double_EOF_disconnects_once (E : Engine) (agent : Agent) (socket : Socket)
    (b1 b2 : List Char) (k : Nat)
    (hs : agent.client_socket_ = some socket)
    (hc : settle agent.connected_ agent.foreground_tasks = true) :
    OnRemoteDataIO agent socket 0 b1 =
        { agent with client_socket_ := none,
                     foreground_tasks := agent.foreground_tasks ++ [.SetConnectedTask false],
                     log := agent.log ++ [.uv_async_send .data_written_, .uv_cond_broadcast] }
    ∧ OnRemoteDataIO ( OnRemoteDataIO agent socket 0 b1) socket 0 b2
        = ( OnRemoteDataIO agent socket 0 b1).emit .uv_cond_broadcast
    ∧ ∃ agent3 ext,
        drainForeground E (agent.foreground_tasks.length + 2 + k)
            ( OnRemoteDataIO ( OnRemoteDataIO agent socket 0 b1) socket 0 b2) = some agent3
        ∧ agent3.log
            = ( OnRemoteDataIO ( OnRemoteDataIO agent socket 0 b1) socket 0 b2).log ++ ext
        ∧ disconnects ext = pend agent.connected_ agent.foreground_tasks + 1
        ∧ agent3.connected_ = false
        ∧ agent3.client_socket_ = none
        ∧ agent3.foreground_tasks = [] := by
  have h1 := OnRemoteDataIO_eof_live agent socket b1 hs
  have h2 : OnRemoteDataIO ( OnRemoteDataIO agent socket 0 b1) socket 0 b2
      = ( OnRemoteDataIO agent socket 0 b1).emit .uv_cond_broadcast :=
    OnRemoteDataIO_eof_stale _ socket b2 (by rw [h1]; simp)
  refine ⟨h1, h2, ?_⟩
  obtain ⟨agent3, hd, hadv, hnil⟩ := drainForeground_advance E
    (agent.foreground_tasks.length + 2 + k)
    ( OnRemoteDataIO ( OnRemoteDataIO agent socket 0 b1) socket 0 b2)
    (by rw [h2, h1]; simp [Agent.emit]; omega)
  obtain ⟨ext, hl, hp⟩ := hadv.grows
  have hsettle := hadv.settled
  have hsock := hadv.socket
  obtain ⟨hse, hpe⟩ := settle_pend_snoc agent.foreground_tasks agent.connected_
  rw [h2, h1] at hp hsettle hsock
  simp only [Agent.emit, hnil, hc, hse, hpe, settle, pend, if_true] at hp hsettle hsock
  exact ⟨agent3, ext, hd, hl, by simpa using hp, hsettle, hsock, hnil⟩

/-- C7 at a concrete connected session on socket 7 with one pending dispatch
task: exactly one disconnect. -/
theorem C7_double_EOF_disconnects_once_witness :
    exampleSession.client_socket_ = some 7
    ∧ settle exampleSession.connected_ exampleSession.foreground_tasks = true
    ∧ ∃ agent3 ext,
        drainForeground exampleEngine 3
            ( OnRemoteDataIO ( OnRemoteDataIO exampleSession 7 0 []) 7 0 []) = some agent3
        ∧ agent3.log
            = ( OnRemoteDataIO ( OnRemoteDataIO exampleSession 7 0 []) 7 0 []).log ++ ext
        ∧ disconnects ext = 1
        ∧ agent3.connected_ = false
        ∧ agent3.client_socket_ = none
        ∧ agent3.foreground_tasks = [] :=
  ⟨rfl, rfl,
    (C7_double_EOF_disconnects_once exampleEngine exampleSession 7 [] [] 0 rfl rfl).2.2⟩

/-- C8 (the code at a read error): on the live, connected session of
`exampleSession`, a read error on the session socket clears the session and
closes the socket but posts no task and leaves the agent connected, whereas an
EOF on the same socket posts `SetConnectedTask(false)`. -/
theorem C8_read_error_posts_no_SetConnectedTask :
    ( OnRemoteDataIO exampleSession 7 (-1) []).client_socket_ = none
    ∧ ( OnRemoteDataIO exampleSession 7 (-1) []).foreground_tasks
        = exampleSession.foreground_tasks
    ∧ ( OnRemoteDataIO exampleSession 7 (-1) []).connected_ = true
    ∧ ( OnRemoteDataIO exampleSession 7 (-1) []).log
        = [.inspector_close 7, .uv_cond_broadcast]
    ∧ ( OnRemoteDataIO exampleSession 7 0 []).foreground_tasks
        = exampleSession.foreground_tasks ++ [.SetConnectedTask false] := by
  decide

/-- C9: from a controller that is not paused, whatever its quit flag (so also
right after a quit signalled outside a pause), `runMessageLoopOnPause` with
wake-ups `ws ++ w :: rest`, where no pump of `ws` signals quit and the pump of
`w` does, returns once, after exactly `ws.length + 1` waits, leaving `rest`
unconsumed and both flags clear; a quit signalled before the entry changes
nothing in the outcome; and when no pump signals quit the call does not
return: it ends parked in the wait. -/
theorem C9_pause_quit_edge_trigger (i : V8NodeInspector) (ws : List Wake) (w : Wake)
    (rest : List Wake) (waits : Nat) (pumped : List PumpCall) (k : Nat)
    (hi : i.running_nested_loop_ = false)
    (hws : ∀ v ∈ ws, PumpCall.quitMessageLoopOnPause ∉ v)
    (hw : PumpCall.quitMessageLoopOnPause ∈ w) :
    runMessageLoopOnPause (ws.length + 2 + k) ⟨i, ws ++ w :: rest, waits, pumped⟩
        = .returned ⟨⟨false, false⟩, rest, waits + ws.length + 1, pumped ++ ws.flatten ++ w⟩
    ∧ (∀ (fuel : Nat) (wakes : List Wake),
        runMessageLoopOnPause fuel ⟨i.quitMessageLoopOnPause, wakes, waits, pumped⟩
          = runMessageLoopOnPause fuel ⟨i, wakes, waits, pumped⟩)
    ∧ runMessageLoopOnPause (ws.length + 2 + k)
          ⟨i.quitMessageLoopOnPause, ws, waits, pumped⟩
        = .blocked ⟨⟨false, true⟩, [], waits + ws.length, pumped ++ ws.flatten⟩ := by
  obtain ⟨t, r⟩ := i
  simp only at hi
  subst hi
  have e : ws.length + 2 + k = (ws.length + 1 + k) + 1 := by omega
  refine ⟨?_, ?_, ?_⟩
  · rw [e]
    simp only [runMessageLoopOnPause, Bool.false_eq_true, if_false]
    rw [pauseLoop_returns _ (runMessageLoopOnPause_guard _) w rest hw ws _ _ _ hws (by omega)]
  · intro fuel wakes
    cases fuel <;>
      simp [runMessageLoopOnPause, V8NodeInspector.quitMessageLoopOnPause]
  · rw [e]
    simp only [runMessageLoopOnPause, V8NodeInspector.quitMessageLoopOnPause,
      Bool.false_eq_true, if_false]
    rw [pauseLoop_blocks _ (runMessageLoopOnPause_guard _) ws _ _ _ hws (by omega)]

/-- C9 at a controller with a stale quit: the quit is signalled during the
second wake-up and the call returns there. -/
theorem C9_pause_quit_edge_trigger_witness :
    runMessageLoopOnPause 3 examplePause
      = .returned ⟨⟨false, false⟩, [[]], 2,
          [.runMessageLoopOnPause, .quitMessageLoopOnPause]⟩ :=
  (C9_pause_quit_edge_trigger ⟨true, false⟩ [[.runMessageLoopOnPause]]
    [.quitMessageLoopOnPause] [[]] 0 [] 0 rfl (by decide) (by decide)).1

/-- C10: `runMessageLoopOnPause` called while the controller is paused returns
at once with the state unchanged: no wake-up is consumed (no wait), nothing is
pumped, and both flags are as before, for every fuel. -/
theorem C10_pause_enter_idempotent (fuel : Nat) (s : PauseState)
    (h : s.inspector.running_nested_loop_ = true) :
    runMessageLoopOnPause fuel s = .returned s :=
  runMessageLoopOnPause_guard fuel s h

/-- C10 at a paused controller with a wake-up pending. -/
theorem C10_pause_enter_idempotent_witness :
    runMessageLoopOnPause 0 ⟨⟨false, true⟩, [[.quitMessageLoopOnPause]], 0, []⟩
      = .returned ⟨⟨false, true⟩, [[.quitMessageLoopOnPause]], 0, []⟩ :=
  C10_pause_enter_idempotent 0 ⟨⟨false, true⟩, [[.quitMessageLoopOnPause]], 0, []⟩ rfl

/-- C12: for every integer `n` in the range of `int`, written in decimal, a GET
to `/json/activate/<n>` is answered, when `n` is the current process id, by the
header and then the 16 characters `Target activated` as the body, and is
rejected with nothing written when `n` is any other number. -/
theorem C12_activate_own_pid_only (P : Process) (socket : Socket) (n : Int)
    (hn : INT_MIN ≤ n ∧ n ≤ (INT_MAX : Int)) :
    RespondToGet P socket (PATH_ACTIVATE ++ decimalInt n) =
      (if n = P.getpid then
        some (true, [.inspector_write socket (httpHeader 16),
                     .inspector_write socket "Target activated".toList])
      else some (false, [])) := by
  rw [RespondToGet_activate]
  have ha : atoi (decimalInt n) = n := by
    have := atoi_decimalInt n [] hn (by simp)
    simpa using this
  rw [ha, SendHttpResponse_spec socket TARGET_ACTIVATED TARGET_ACTIVATED.length (by decide)]
  rfl

/-- C12 at the process 1234: `/json/activate/1234` is acknowledged and
`/json/activate/1235` is rejected. -/
theorem C12_activate_own_pid_only_witness :
    (INT_MIN ≤ (1235 : Int) ∧ (1235 : Int) ≤ (INT_MAX : Int))
    ∧ RespondToGet exampleProcess 3 (PATH_ACTIVATE ++ decimalInt 1234) =
        some (true, [.inspector_write 3 (httpHeader 16),
                     .inspector_write 3 "Target activated".toList])
    ∧ RespondToGet exampleProcess 3 (PATH_ACTIVATE ++ decimalInt 1235) = some (false, []) :=
  ⟨by decide,
   (C12_activate_own_pid_only exampleProcess 3 1234 (by decide)).trans (if_pos rfl),
   (C12_activate_own_pid_only exampleProcess 3 1235 (by decide)).trans (if_neg (by decide))⟩

/-- C16: for a body of `len < 2^63` characters, `SendHttpResponse` writes the
whole formatted header (it is at most 128 characters long, less than the
`sizeof(HEADERS) + 20` of the buffer), which contains `Cache-Control: no-cache`
and whose `Content-Length` digits read back as `len`, and then exactly the
body. -/
theorem C16_header_complete (socket : Socket) (response : List Char)
    (h : response.length < 2 ^ 63) :
    SendHttpResponse socket response response.length =
        [.inspector_write socket (httpHeader response.length),
         .inspector_write socket response]
    ∧ httpHeader response.length = printf_format HEADERS [.ld (as_long response.length)]
    ∧ (httpHeader response.length).length < sizeof_literal HEADERS + 20
    ∧ decimalValue (decimal response.length ++ HEADERS_tail) = response.length
    ∧ "Cache-Control: no-cache".toList <:+: HEADERS_head := by
  refine ⟨?_, ?_, ?_, ?_,
    "HTTP/1.0 200 OK\r\nContent-Type: application/json; charset=UTF-8\r\n".toList,
    "\r\nContent-Length: ".toList, rfl⟩
  · rw [SendHttpResponse_spec socket response response.length h, List.take_length]
  · rw [as_long_small _ h, printf_HEADERS, decimalInt_natCast]; rfl
  · have := httpHeader_length response.length h
    have hs : sizeof_literal HEADERS + 20 = 133 := by decide
    omega
  · have := decimalValue_decimalInt (response.length : Int) HEADERS_tail (by decide)
    rwa [decimalInt_natCast] at this

/-- C16 at the body `Target activated`. -/
theorem C16_header_complete_witness :
    "Target activated".toList.length < 2 ^ 63
    ∧ SendHttpResponse 3 "Target activated".toList "Target activated".toList.length =
        [.inspector_write 3 (httpHeader "Target activated".toList.length),
         .inspector_write 3 "Target activated".toList] :=
  ⟨by decide, (C16_header_complete 3 "Target activated".toList (by decide)).1⟩

/-- C17: `AcceptsConnection` accepts a path exactly when the C string it
denotes is `/node`; `/node/`, `/nodes`, the proper prefix `/nod` and the empty
path are refused. -/
theorem C17_AcceptsConnection_exact (socket : Socket) (path : List Char) :
    (AcceptsConnection socket path = true ↔ cstr path = "/node".toList)
    ∧ AcceptsConnection socket "/node".toList = true
    ∧ AcceptsConnection socket "/node/".toList = false
    ∧ AcceptsConnection socket "/nodes".toList = false
    ∧ AcceptsConnection socket "/nod".toList = false
    ∧ AcceptsConnection socket [] = false := by
  refine ⟨?_, rfl, rfl, rfl, rfl, rfl⟩
  unfold AcceptsConnection
  rw [beq_zero_iff]
  exact strncmp_exact DEVTOOLS_PATH path DEVTOOLS_PATH_nul

/-- C13: for a node version of at most 130 characters that stand for
themselves in a JSON string, a GET to a path whose C string is `/json/version`
is accepted; the body written is the whole text of the template with the
version in place of `%s` (nothing is cut by the buffer), and it reads as a JSON
array holding one object with the members `Browser` (`node.js/` followed by the
version), `Protocol-Version`, `User-Agent` and `WebKit-Version`. -/
theorem C13_version_response (P : Process) (socket : Socket) (path : List Char)
    (hpath : cstr path = PATH_VERSION)
    (hplain : ∀ c ∈ P.NODE_VERSION, plainChar c) (hlen : P.NODE_VERSION.length ≤ 130) :
    RespondToGet P socket path =
        some (true, [.inspector_write socket (httpHeader (versionBody P.NODE_VERSION).length),
                     .inspector_write socket (versionBody P.NODE_VERSION)])
    ∧ versionBody P.NODE_VERSION
        = printf_format VERSION_RESPONSE_TEMPLATE [.s P.NODE_VERSION]
    ∧ parseJSON (versionBody P.NODE_VERSION) = some (versionJSON P.NODE_VERSION) := by
  refine ⟨?_, ?_, versionBody_json _ hplain⟩
  · have e1 : (strncmp PATH_VERSION path (sizeof_literal PATH_VERSION) == 0) = true := by
      rw [beq_zero_iff]
      exact (strncmp_exact PATH_VERSION path PATH_VERSION_nul).2 hpath
    unfold RespondToGet
    rw [e1, SendVersionResponse_spec P socket hplain hlen]
    rfl
  · rw [printf_VERSION, cstr_plain _ hplain]

/-- C13 at the process of version `v6.2.0`. -/
theorem C13_version_response_witness :
    RespondToGet exampleProcess 3 "/json/version".toList =
      some (true,
        [.inspector_write 3 (httpHeader (versionBody exampleProcess.NODE_VERSION).length),
         .inspector_write 3 (versionBody exampleProcess.NODE_VERSION)])
    ∧ parseJSON (versionBody exampleProcess.NODE_VERSION)
        = some (versionJSON exampleProcess.NODE_VERSION) :=
  ⟨(C13_version_response exampleProcess 3 "/json/version".toList (by decide)
      (by decide) (by decide)).1,
   (C13_version_response exampleProcess 3 "/json/version".toList (by decide)
      (by decide) (by decide)).2.2⟩

set_option maxRecDepth 20000 in
/-- C14 (the code at `/json/list` and `/json`): for the process 1234 with the
title `node`, the response is accepted and its body reads as a JSON array with
one object whose `id` is `1234`, whose `title` is `node`, whose `type` is
`node`, and whose `webSocketDebuggerUrl` is `ws:///node`: the control path
directly after `ws://`, with no host and no port. -/
theorem C14_list_response_url_has_no_host_port :
    RespondToGet exampleProcess 3 "/json/list".toList =
        some (true, [.inspector_write 3 (httpHeader 326),
                     .inspector_write 3 exampleListBody])
    ∧ RespondToGet exampleProcess 3 "/json".toList =
        some (true, [.inspector_write 3 (httpHeader 326),
                     .inspector_write 3 exampleListBody])
    ∧ parseJSON exampleListBody = some exampleListJSON := by
  refine ⟨by decide, by decide, rfl⟩

set_option maxRecDepth 20000 in
/-- C15 as stated fails: the acknowledgement of `/json/activate/1234` by the
process 1234 is sent with the header of every other response, whose content
type is `application/json; charset=UTF-8`, and nowhere names `text/plain`. -/
theorem C15_activate_sent_as_json :
    RespondToGet exampleProcess 3 "/json/activate/1234".toList =
        some (true, [.inspector_write 3 exampleActivateHeader,
                     .inspector_write 3 "Target activated".toList])
    ∧ "Content-Type: application/json; charset=UTF-8\r\n".toList <:+: exampleActivateHeader
    ∧ ¬ ("text/plain".toList <:+: exampleActivateHeader) := by
  refine ⟨by decide, ⟨"HTTP/1.0 200 OK\r\n".toList,
    "Cache-Control: no-cache\r\nContent-Length: 16\r\n\r\n".toList, rfl⟩, by decide⟩

/-- C15 amended: every response that `RespondToGet` accepts, the activate
acknowledgement included, is the header made from `HEADERS` followed by the
body, and that header starts with the status line and
`Content-Type: application/json; charset=UTF-8`. -/
theorem C15_every_response_sent_as_json (P : Process) (socket : Socket) (path : List Char)
    (writes : List Effect) (h : RespondToGet P socket path = some (true, writes)) :
    ∃ (len : Nat) (body : List Char),
      writes = [.inspector_write socket (httpHeader len), .inspector_write socket body]
      ∧ ("HTTP/1.0 200 OK\r\n" ++
          "Content-Type: application/json; charset=UTF-8\r\n").toList <+: httpHeader len := by
  have hp : ∀ len : Nat, ("HTTP/1.0 200 OK\r\n" ++
      "Content-Type: application/json; charset=UTF-8\r\n").toList <+: httpHeader len :=
    fun len => ⟨"Cache-Control: no-cache\r\nContent-Length: ".toList
      ++ (decimal len ++ HEADERS_tail), rfl⟩
  unfold RespondToGet at h
  split at h
  · cases hv : SendVersionResponse P socket with
    | none => rw [hv] at h; exact absurd h (by simp)
    | some w =>
      rw [hv] at h
      obtain ⟨len, body, hw⟩ := SendVersionResponse_shape P socket w hv
      have : w = writes := by simpa using h
      exact ⟨len, body, this ▸ hw, hp len⟩
  · split at h
    · cases hv : SendTargentsListResponse P socket with
      | none => rw [hv] at h; exact absurd h (by simp)
      | some w =>
        rw [hv] at h
        obtain ⟨len, body, hw⟩ := SendTargentsListResponse_shape P socket w hv
        have : w = writes := by simpa using h
        exact ⟨len, body, this ▸ hw, hp len⟩
    · split at h
      · rw [SendHttpResponse_spec _ _ _ (by decide)] at h
        have : [Effect.inspector_write socket (httpHeader (sizeof_literal TARGET_ACTIVATED - 1)),
            Effect.inspector_write socket
              (TARGET_ACTIVATED.take (sizeof_literal TARGET_ACTIVATED - 1))] = writes := by
          simpa using h
        exact ⟨_, _, this.symm, hp _⟩
      · exact absurd h (by simp)

set_option maxRecDepth 20000 in
/-- C15 amended, at the activate acknowledgement of the process 1234. -/
theorem C15_every_response_sent_as_json_witness :
    ∃ (len : Nat) (body : List Char),
      [Effect.inspector_write 3 exampleActivateHeader,
       Effect.inspector_write 3 "Target activated".toList]
        = [.inspector_write 3 (httpHeader len), .inspector_write 3 body]
      ∧ ("HTTP/1.0 200 OK\r\n" ++
          "Content-Type: application/json; charset=UTF-8\r\n").toList <+: httpHeader len :=
  C15_every_response_sent_as_json exampleProcess 3 "/json/activate/1234".toList
    [.inspector_write 3 exampleActivateHeader, .inspector_write 3 "Target activated".toList]
    (by decide)

/-- C18 as stated fails: with the live session of `exampleSession` on socket 7,
the completed upgrade of socket 8 is reported as accepted (the callback returns
true) and the agent, its log included, is unchanged: no close is issued on
socket 8. -/
theorem C18_second_upgrade_not_closed :
    OnInspectorHandshakeIO exampleProcess exampleSession 8
        .kInspectorHandshakeUpgraded "/node".toList = some (exampleSession, true)
    ∧ Effect.inspector_close 8 ∉ exampleSession.log := by
  decide

/-- C18 amended: when a session exists, a completed second upgrade is ignored:
`OnInspectorHandshakeIO` returns true and leaves the agent unchanged, so the
session stays, no read is started, no task is posted and no close is issued on
the second socket. -/
theorem C18_second_upgrade_ignored_silently (P : Process) (agent : Agent) (s1 socket : Socket)
    (path : List Char) (h : agent.client_socket_ = some s1) :
    OnInspectorHandshakeIO P agent socket .kInspectorHandshakeUpgraded path
      = some (agent, true) := by
  simp [ OnInspectorHandshakeIO, OnInspectorConnectionIO, h]

/-- C18 amended, at the session on socket 7 and a second socket 8. -/
theorem C18_second_upgrade_ignored_silently_witness :
    exampleSession.client_socket_ = some 7
    ∧ OnInspectorHandshakeIO exampleProcess exampleSession 8
        .kInspectorHandshakeUpgraded "/node".toList = some (exampleSession, true) :=
  ⟨rfl, C18_second_upgrade_ignored_silently exampleProcess exampleSession 7 8
    "/node".toList rfl⟩

/-- C19 as stated fails: after `Stop` on a freshly started agent the
`shutting_down_` flag is still false. -/
theorem C19_Stop_leaves_flag_clear :
    (Stop (Agent.started 9229 false)).shutting_down_ = false := by
  decide

/-- C19 amended: `Stop` leaves `shutting_down_` as it was, for every agent; and
when no session is active it issues no close: it only joins the IO thread, runs
and closes the child loop and deletes the inspector. -/
theorem C19_Stop_keeps_flag_closes_nothing (agent : Agent) :
    (Stop agent).shutting_down_ = agent.shutting_down_
    ∧ (agent.client_socket_ = none →
        (Stop agent).log = agent.log
          ++ [.uv_thread_join, .uv_run_child_loop, .uv_loop_close, .delete_inspector]
        ∧ ∀ s : Socket, Effect.inspector_close s ∉ (Stop agent).log.drop agent.log.length) := by
  constructor
  · cases hs : agent.client_socket_ <;> simp [Stop, DisconnectAndDisposeIO, Agent.emit, hs]
  · intro hs
    have hl : (Stop agent).log = agent.log
        ++ [.uv_thread_join, .uv_run_child_loop, .uv_loop_close, .delete_inspector] := by
      simp [Stop, DisconnectAndDisposeIO, Agent.emit, hs]
    refine ⟨hl, fun s => ?_⟩
    rw [hl, List.drop_left]
    simp

/-- C19 amended, at a freshly started agent. -/
theorem C19_Stop_keeps_flag_closes_nothing_witness :
    (Stop (Agent.started 9229 false)).log
      = [.uv_thread_join, .uv_run_child_loop, .uv_loop_close, .delete_inspector] :=
  ((C19_Stop_keeps_flag_closes_nothing (Agent.started 9229 false)).2 rfl).1

/-- C20 as stated fails: with an engine that sends nothing, a top-level
`PostMessages` on the two queued messages logs the two dispatches and then the
wake of `data_written_`; `io_thread_req_` is not signalled. -/
theorem C20_PostMessages_wakes_data_written :
    (PostMessages quietEngine 1 exampleAgent).map (fun a => a.log)
        = some [.dispatchMessageFromFrontend ['a'], .dispatchMessageFromFrontend ['b'],
                .uv_async_send .data_written_]
    ∧ (PostMessages quietEngine 1 exampleAgent).map
          (fun a => decide (Effect.uv_async_send .io_thread_req_ ∈ a.log))
        = some false := by
  decide

/-- C20 amended: for every engine, a top-level `PostMessages` returns, and the
last call it logs, after all the dispatches of the inbound messages, is the wake
of `data_written_`: the handle that `Start` initialises with no callback, while
`WriteCbIO` is the callback of `io_thread_req_`. -/
theorem C20_PostMessages_signals_data_written (E : Engine) (fuel : Nat) (agent : Agent)
    (h : agent.dispatching_messages_ = false) :
    (∃ agent1 ext, PostMessages E (fuel + 1) agent = some agent1
        ∧ agent1.log = agent.log ++ ext ++ [.uv_async_send .data_written_]
        ∧ dispatched ext = agent.message_queue_)
    ∧ (uv_async_init_cb .data_written_).isNone = true
    ∧ uv_async_init_cb .io_thread_req_ = some WriteCbIO := by
  refine ⟨?_, rfl, rfl⟩
  obtain ⟨b, hb, hab⟩ := PostMessages_top E fuel agent h
  obtain ⟨ext, hl, hd, _⟩ := hab.grows
  refine ⟨left b, ext, hb, ?_, hd⟩
  simp only [left, hl, entered]

/-- C20 amended, at a concrete agent and a re-entrant engine. -/
theorem C20_PostMessages_signals_data_written_witness :
    exampleAgent.dispatching_messages_ = false
    ∧ ∃ agent1 ext, PostMessages exampleEngine 1 exampleAgent = some agent1
        ∧ agent1.log = exampleAgent.log ++ ext ++ [.uv_async_send .data_written_]
        ∧ dispatched ext = exampleAgent.message_queue_ :=
  ⟨rfl, (C20_PostMessages_signals_data_written exampleEngine 0 exampleAgent rfl).1⟩

/-- C21: a message that the engine sends through the channel, as a response or
as a notification, goes through `Agent::Write`, which appends it at the tail of
the outbound queue and signals `io_thread_req_` (the handle whose callback is
`WriteCbIO`) once; every other member of the agent (inbound queue, session,
connected flag, ...) is as before. -/
theorem C21_Write_appends_and_wakes (agent : Agent) (message : Message)
    (sessionId callId : Int) :
    ChannelImpl.sendProtocolResponse agent sessionId callId message = Write agent message
    ∧ ChannelImpl.sendProtocolNotification agent message = Write agent message
    ∧ Write agent message =
        { agent with
            outgoing_message_queue_ := agent.outgoing_message_queue_ ++ [message],
            log := agent.log ++ [.uv_async_send .io_thread_req_] }
    ∧ uv_async_init_cb .io_thread_req_ = some WriteCbIO :=
  ⟨rfl, rfl, rfl, rfl⟩

/-- C22: `SetConnected(true)` on a disconnected agent sets the flag and logs the
attach message and one `connectFrontend`, nothing else; `SetConnected(false)` on
a connected agent clears the flag and logs (after the ready message, unless
shutting down) one `quitMessageLoopOnPause`, which sets `terminated_`, and then
one `disconnectFrontend`. -/
theorem C22_SetConnected_transitions (agent : Agent) :
    (agent.connected_ = false →
      SetConnected agent true =
        { agent with connected_ := true,
                     log := agent.log ++ [.fprintf_Debugger_attached, .connectFrontend] })
    ∧ (agent.connected_ = true →
      SetConnected agent false =
        { agent with connected_ := false,
                     inspector_ := { agent.inspector_ with terminated_ := true },
                     log := agent.log ++ (if agent.shutting_down_ then []
                                          else [.PrintDebuggerReadyMessage agent.port_])
                              ++ [.quitMessageLoopOnPause, .disconnectFrontend] }) :=
  ⟨SetConnected_true agent, SetConnected_false agent⟩

/-- C22 at a freshly started agent and at a connected session. -/
theorem C22_SetConnected_transitions_witness :
    (SetConnected (Agent.started 9229 false) true).log
        = [.fprintf_Debugger_attached, .connectFrontend]
    ∧ (SetConnected exampleSession false).log
        = [.PrintDebuggerReadyMessage 9229, .quitMessageLoopOnPause, .disconnectFrontend] :=
  ⟨congrArg Agent.log ((C22_SetConnected_transitions (Agent.started 9229 false)).1 rfl),
   congrArg Agent.log ((C22_SetConnected_transitions exampleSession).2 rfl)⟩

/-- C23: for data read by `OnRemoteDataIO` (`read > 0`), the message is
appended to the inbound queue in every case; the semaphore is posted and
`wait_` cleared exactly when `wait_` is set and the message contains
`"Runtime.run"` with its quotes, and otherwise `wait_` is unchanged and no post
is made; over any sequence of `OnRemoteDataIO` calls at most one post is made,
and none when `wait_` is clear at the start. -/
theorem C23_run_trigger_releases_once (agent : Agent) (socket : Socket) (read : Int)
    (b : List Char) (rs : List RemoteRead) (hr : 0 < read) :
    ( OnRemoteDataIO agent socket read b).message_queue_
        = agent.message_queue_ ++ [b.take read.toNat]
    ∧ (agent.wait_ = true ∧ "\"Runtime.run\"".toList <:+: b.take read.toNat →
        ( OnRemoteDataIO agent socket read b).wait_ = false
        ∧ ( OnRemoteDataIO agent socket read b).log
            = agent.log ++ [.uv_sem_post, .RequestInterrupt,
                            .uv_async_send .data_written_, .uv_cond_broadcast])
    ∧ (¬ (agent.wait_ = true ∧ "\"Runtime.run\"".toList <:+: b.take read.toNat) →
        ( OnRemoteDataIO agent socket read b).wait_ = agent.wait_
        ∧ ( OnRemoteDataIO agent socket read b).log
            = agent.log ++ [.RequestInterrupt,
                            .uv_async_send .data_written_, .uv_cond_broadcast])
    ∧ semPosts (receiveAll agent rs).log ≤ semPosts agent.log + 1
    ∧ (agent.wait_ = false → semPosts (receiveAll agent rs).log = semPosts agent.log) := by
  refine ⟨(OnRemoteDataIO_data_inbound agent socket read b hr).1, ?_, ?_, ?_, ?_⟩
  · intro h
    rw [OnRemoteDataIO_data_trigger agent socket read b hr h.1 h.2]
    exact ⟨rfl, rfl⟩
  · intro h
    rw [OnRemoteDataIO_data_plain agent socket read b hr h]
    exact ⟨rfl, rfl⟩
  · obtain ⟨h1, _⟩ := receiveAll_semaphore rs agent
    have : (if agent.wait_ = true then 1 else 0) ≤ 1 := by split <;> omega
    omega
  · intro hw
    obtain ⟨h1, h2⟩ := receiveAll_semaphore rs agent
    simp only [hw, Bool.false_eq_true, if_false, Nat.add_zero] at h1
    omega

/-- C23 at an agent waiting for the frontend: the second of three messages
carries the trigger, the third carries it again. -/
theorem C23_run_trigger_releases_once_witness :
    (0 : Int) < 3
    ∧ ( OnRemoteDataIO exampleWaiting 7 3 "abc".toList).message_queue_ = ["abc".toList]
    ∧ semPosts (receiveAll exampleWaiting
        [⟨7, 3, "abc".toList⟩, ⟨7, 13, "\"Runtime.run\"".toList⟩,
         ⟨7, 13, "\"Runtime.run\"".toList⟩]).log ≤ semPosts exampleWaiting.log + 1 :=
  ⟨by decide,
   (C23_run_trigger_releases_once exampleWaiting 7 3 "abc".toList [] (by decide)).1,
   (C23_run_trigger_releases_once exampleWaiting 7 3 "abc".toList
     [⟨7, 3, "abc".toList⟩, ⟨7, 13, "\"Runtime.run\"".toList⟩,
      ⟨7, 13, "\"Runtime.run\"".toList⟩] (by decide)).2.2.2.1⟩

/-- C24: on an outbound wake with a live session, `WriteCbIO` writes the
outbound queue to the session socket, message by message in queue order, and
leaves the queue empty; with no session it returns the agent unchanged: nothing
is written and the outbound queue keeps its messages. -/
theorem C24_WriteCbIO_flushes_in_order (agent : Agent) :
    (∀ socket : Socket, agent.client_socket_ = some socket →
      WriteCbIO agent =
        { agent with
            outgoing_message_queue_ := [],
            log := agent.log
              ++ agent.outgoing_message_queue_.map (.inspector_write socket) })
    ∧ (agent.client_socket_ = none → WriteCbIO agent = agent) := by
  refine ⟨fun socket h => WriteCbIO_live agent socket h, fun h => ?_⟩
  simp [ WriteCbIO, h]

/-- C24 at a session with one queued outbound message, and with no session. -/
theorem C24_WriteCbIO_flushes_in_order_witness :
    ( WriteCbIO exampleSession).log = [.inspector_write 7 ['r']]
    ∧ ( WriteCbIO exampleSession).outgoing_message_queue_ = []
    ∧ WriteCbIO { exampleSession with client_socket_ := none }
        = { exampleSession with client_socket_ := none } :=
  ⟨congrArg Agent.log ((C24_WriteCbIO_flushes_in_order exampleSession).1 7 rfl),
   congrArg Agent.outgoing_message_queue_
     ((C24_WriteCbIO_flushes_in_order exampleSession).1 7 rfl),
   (C24_WriteCbIO_flushes_in_order { exampleSession with client_socket_ := none }).2 rfl⟩

/-- C25: when `runMessageLoopOnPause`, called on a controller that is not
paused, returns, both `terminated_` and `running_nested_loop_` are false; and
from the state it returned in, a later call enters the pause again: it waits
for the next wake-up and, when the pump of that wake-up signals quit, returns
with both flags false once more. -/
theorem C25_pause_returns_to_running (fuel : Nat) (s s1 : PauseState)
    (h : s.inspector.running_nested_loop_ = false)
    (hret : runMessageLoopOnPause fuel s = .returned s1) :
    s1.inspector = ⟨false, false⟩
    ∧ ∀ (w : Wake) (rest : List Wake) (k : Nat), PumpCall.quitMessageLoopOnPause ∈ w →
        runMessageLoopOnPause (2 + k) { s1 with wakes := w :: rest }
          = .returned ⟨⟨false, false⟩, rest, s1.waits + 1, s1.pumped ++ w⟩ := by
  have h1 : s1.inspector = ⟨false, false⟩ := by
    cases fuel with
    | zero => simp [runMessageLoopOnPause, h] at hret
    | succ n =>
      simp only [runMessageLoopOnPause, h, Bool.false_eq_true, if_false] at hret
      split at hret
      · rw [← Outcome.returned.inj hret]
      · rename_i hne
        exact absurd hret (hne s1)
  refine ⟨h1, fun w rest k hw => ?_⟩
  obtain ⟨i, wakes, waits, pumped⟩ := s1
  simp only at h1
  subst h1
  have e : 2 + k = (1 + k) + 1 := by omega
  rw [e]
  simp only [runMessageLoopOnPause, Bool.false_eq_true, if_false]
  have := pauseLoop_returns (runMessageLoopOnPause (1 + k)) (runMessageLoopOnPause_guard _)
    w rest hw [] (1 + k) waits pumped (by simp) (by simp)
  simp only [List.nil_append, List.flatten_nil, List.append_nil, List.length_nil,
    Nat.add_zero] at this
  rw [this]

/-- C25 at the controller of `examplePause`, which returns at its second
wake-up. -/
theorem C25_pause_returns_to_running_witness :
    examplePause.inspector.running_nested_loop_ = false
    ∧ runMessageLoopOnPause 3 examplePause
        = .returned ⟨⟨false, false⟩, [[]], 2,
            [.runMessageLoopOnPause, .quitMessageLoopOnPause]⟩
    ∧ (⟨⟨false, false⟩, [[]], 2,
        [.runMessageLoopOnPause, .quitMessageLoopOnPause]⟩ : PauseState).inspector
        = ⟨false, false⟩ :=
  ⟨rfl, by decide,
   (C25_pause_returns_to_running 3 examplePause
     ⟨⟨false, false⟩, [[]], 2, [.runMessageLoopOnPause, .quitMessageLoopOnPause]⟩
     rfl (by decide)).1⟩

/-- C28: for every suffix `s` that is empty or starts with a character that is
not a decimal digit, `RespondToGet` on `/json/activate/` followed by the
current process id in decimal and then `s` answers with the header and the body
`Target activated`; with a suffix that is not empty the path is not the
process id alone. -/
theorem C28_activate_ignores_suffix (P : Process) (socket : Socket) (s : List Char)
    (h : ∀ c ∈ s.head?, c.isDigit = false) :
    RespondToGet P socket (PATH_ACTIVATE ++ (decimalInt P.getpid ++ s)) =
        some (true, [.inspector_write socket (httpHeader 16),
                     .inspector_write socket "Target activated".toList])
    ∧ (s ≠ [] →
        PATH_ACTIVATE ++ (decimalInt P.getpid ++ s) ≠ PATH_ACTIVATE ++ decimalInt P.getpid) := by
  constructor
  · rw [RespondToGet_activate, atoi_decimalInt P.getpid s P.getpid_int h, if_pos rfl,
      SendHttpResponse_spec socket TARGET_ACTIVATED TARGET_ACTIVATED.length (by decide)]
    rfl
  · intro hs heq
    have h1 := List.append_cancel_left heq
    have h2 : (decimalInt P.getpid ++ s).length = (decimalInt P.getpid).length := by rw [h1]
    rw [List.length_append] at h2
    exact hs (List.length_eq_zero.1 (by omega))

/-- C28 at the process 1234 and the suffix `/x?y`. -/
theorem C28_activate_ignores_suffix_witness :
    RespondToGet exampleProcess 3
        (PATH_ACTIVATE ++ (decimalInt exampleProcess.getpid ++ "/x?y".toList)) =
      some (true, [.inspector_write 3 (httpHeader 16),
                   .inspector_write 3 "Target activated".toList]) :=
  (C28_activate_ignores_suffix exampleProcess 3 "/x?y".toList (by decide)).1

set_option maxRecDepth 20000 in
/-- C27 (the code at a title with a double quote): the sanitising loop leaves
the title `a"b` as it is, the list response embeds it unchanged, and the body
is not a JSON text. -/
theorem C27_title_embedded_unsanitized :
    sanitize_title "a\"b".toList = "a\"b".toList
    ∧ RespondToGet exampleQuotedProcess 3 "/json/list".toList =
        some (true, [.inspector_write 3 (httpHeader 325),
                     .inspector_write 3 exampleQuotedListBody])
    ∧ parseJSON exampleQuotedListBody = none := by
  refine ⟨rfl, by decide, rfl⟩

/-- C29: for every buffer length `L` and 32-bit unsigned `byte_offset` and
`size`, `AdditionalConfig` returns `Just(true)` exactly when the sum
`byte_offset + size`, taken without wraparound, fits in 32 bits and is at most
`L`, and `size` is at most `INT_MAX`; it then sets the buffer to `byte_offset`
bytes into the source and the size to `size`. When the sum wraps or exceeds `L`
a `CHECK` fails, and when both checks pass and `size` exceeds `INT_MAX` it
throws the out-of-range error and returns `Nothing`. -/
theorem C29_AdditionalConfig_bounds (L byte_offset size : Nat)
    (ho : byte_offset < 2 ^ 32) (hs : size < 2 ^ 32) :
    (∀ params, RandomBytesTraits.AdditionalConfig L byte_offset size = .Just_true params →
        byte_offset + size ≤ L ∧ size ≤ INT_MAX
        ∧ params = { buffer := byte_offset, size := size })
    ∧ (byte_offset + size < 2 ^ 32 → byte_offset + size ≤ L → size ≤ INT_MAX →
        RandomBytesTraits.AdditionalConfig L byte_offset size
          = .Just_true { buffer := byte_offset, size := size })
    ∧ (2 ^ 32 ≤ byte_offset + size ∨ L < byte_offset + size →
        RandomBytesTraits.AdditionalConfig L byte_offset size = .check_failed)
    ∧ (byte_offset + size < 2 ^ 32 → byte_offset + size ≤ L → INT_MAX < size →
        RandomBytesTraits.AdditionalConfig L byte_offset size = .Nothing_ERR_OUT_OF_RANGE) := by
  have key := AdditionalConfig_eq L byte_offset size ho hs
  refine ⟨?_, ?_, ?_, ?_⟩
  · intro params h
    rw [key] at h
    split_ifs at h with h1 h2
    have := ConfigResult.Just_true.inj h
    exact ⟨h1.2, by omega, this.symm⟩
  · intro h1 h2 h3
    rw [key, if_pos ⟨h1, h2⟩, if_neg (by omega)]
  · intro h
    rw [key, if_neg (by omega)]
  · intro h1 h2 h3
    rw [key, if_pos ⟨h1, h2⟩, if_pos h3]

/-- C29 at a buffer of 100 bytes, offset 10 and size 90. -/
theorem C29_AdditionalConfig_bounds_witness :
    RandomBytesTraits.AdditionalConfig 100 10 90 = .Just_true { buffer := 10, size := 90 }
    ∧ RandomBytesTraits.AdditionalConfig (2 ^ 33) (2 ^ 32 - 1) 1 = .check_failed :=
  ⟨(C29_AdditionalConfig_bounds 100 10 90 (by decide) (by decide)).2.1
      (by decide) (by decide) (by decide),
   (C29_AdditionalConfig_bounds (2 ^ 33) (2 ^ 32 - 1) 1 (by decide) (by decide)).2.2.1
      (Or.inl (by decide))⟩

/-- C30 as stated fails, twice. With the segment `[0, 0xa00000]`, the
reference symbol at `0x400000` and the lpstub at `0x200000` (inside the
segment, before the reference symbol), the region found is
`[0x400000, 0xa00000)`, whose `to` is above the lpstub start. With a segment of
`2^52` bytes the region holds `2^31` huge pages and `total_hugepages`, an
`int`, is `-2^31`. -/
theorem C30_region_past_lpstub_and_count_narrowed :
    FindNodeTextRegion exampleObjects 0x400000 0x200000
        = { from_ := 0x400000, to_ := 0xa00000, total_hugepages := 3,
            found_text_region := true }
    ∧ (foundSegment exampleObjects 0x400000).start ≤ 0x200000
    ∧ 0x200000 ≤ (foundSegment exampleObjects 0x400000).end_
    ∧ ¬ (FindNodeTextRegion exampleObjects 0x400000 0x200000).to_ ≤ 0x200000
    ∧ FindNodeTextRegion exampleHugeObjects 0x200000 0
        = { from_ := 0x200000, to_ := 0x200000 + 2 ^ 52, total_hugepages := -2147483648,
            found_text_region := true }
    ∧ (0x200000 + 2 ^ 52 - 0x200000) / hps = 2147483648 := by
  decide

/-- C30 amended: when `reference_sym + 2 MiB` does not wrap and
`FindNodeTextRegion` reports `found_text_region`, the segment found holds the
reference symbol, `from` and `to` are multiples of 2 MiB with
`reference_sym <= from < to <= end`, `to` is at most the lpstub start when that
lies after the reference symbol and not after `end`, and when the number of
huge pages `(to - from) / 2 MiB` is at most `INT_MAX`, `total_hugepages` is
that number and is at least 1. -/
theorem C30_text_region_aligned (objects : List dl_phdr_info) (reference_sym lpstub : Nat)
    (hw : reference_sym + hps ≤ 2 ^ 64) (hl : lpstub < 2 ^ 64)
    (hf : (FindNodeTextRegion objects reference_sym lpstub).found_text_region = true) :
    (foundSegment objects reference_sym).start ≤ reference_sym
    ∧ reference_sym ≤ (foundSegment objects reference_sym).end_
    ∧ hps ∣ (FindNodeTextRegion objects reference_sym lpstub).from_
    ∧ hps ∣ (FindNodeTextRegion objects reference_sym lpstub).to_
    ∧ reference_sym ≤ (FindNodeTextRegion objects reference_sym lpstub).from_
    ∧ (FindNodeTextRegion objects reference_sym lpstub).from_
        < (FindNodeTextRegion objects reference_sym lpstub).to_
    ∧ (FindNodeTextRegion objects reference_sym lpstub).to_
        ≤ (foundSegment objects reference_sym).end_
    ∧ (reference_sym < lpstub → lpstub ≤ (foundSegment objects reference_sym).end_ →
        (FindNodeTextRegion objects reference_sym lpstub).to_ ≤ lpstub)
    ∧ (((FindNodeTextRegion objects reference_sym lpstub).to_
          - (FindNodeTextRegion objects reference_sym lpstub).from_) / hps ≤ INT_MAX →
        (FindNodeTextRegion objects reference_sym lpstub).total_hugepages
          = ((((FindNodeTextRegion objects reference_sym lpstub).to_
              - (FindNodeTextRegion objects reference_sym lpstub).from_) / hps : Nat) : Int)
        ∧ 1 ≤ (FindNodeTextRegion objects reference_sym lpstub).total_hugepages) := by
  have hhps : hps = 2097152 := rfl
  have hI : INT_MAX = 2147483647 := rfl
  have key := dl_iterate_phdr_spec objects
    { start := 0, end_ := 0, reference_sym := reference_sym }
  unfold FindNodeTextRegion at hf ⊢
  unfold foundSegment
  generalize dl_iterate_phdr FindMapping objects
    { start := 0, end_ := 0, reference_sym := reference_sym } = r at key hf ⊢
  obtain ⟨code, seg_start, seg_end, seg_ref⟩ := r
  simp only at key hf ⊢
  by_cases h1 : code = 1
  swap
  · rw [if_neg h1] at hf
    exact absurd hf (by decide)
  obtain ⟨e1, e2, e3, e4⟩ := key (by rw [h1]; decide)
  subst e1
  rw [if_pos h1] at hf ⊢
  by_cases h2 : lpstub > seg_ref ∧ lpstub ≤ seg_end
  · rw [if_pos h2] at hf ⊢
    rw [hugepage_align_up_eq _ hw, hugepage_align_down_eq _ hl] at hf ⊢
    by_cases h3 : seg_ref < lpstub
    swap
    · rw [if_neg h3] at hf
      exact absurd hf (by decide)
    rw [if_pos h3] at hf ⊢
    by_cases h4 : (seg_ref + 2097151) / 2097152 * 2097152 < lpstub / 2097152 * 2097152
    swap
    · rw [if_neg h4] at hf
      exact absurd hf (by decide)
    rw [if_pos h4] at hf ⊢
    by_cases h5 : (lpstub / 2097152 * 2097152 - (seg_ref + 2097151) / 2097152 * 2097152)
        / hps > 0
    swap
    · rw [if_neg h5] at hf
      exact absurd hf (by decide)
    rw [if_pos h5] at hf ⊢
    dsimp only
    refine ⟨e2, e3, ⟨_, Nat.mul_comm _ _⟩, ⟨_, Nat.mul_comm _ _⟩, by omega, h4, by omega,
      fun _ _ => by omega, ?_⟩
    intro hc
    simp only [hhps] at hc h5 ⊢
    unfold size_t_to_int
    rw [Nat.mod_eq_of_lt (by omega), if_pos (by omega)]
    exact ⟨rfl, by omega⟩
  · rw [if_neg h2] at hf ⊢
    rw [hugepage_align_up_eq _ hw, hugepage_align_down_eq _ e4] at hf ⊢
    by_cases h3 : seg_ref < seg_end
    swap
    · rw [if_neg h3] at hf
      exact absurd hf (by decide)
    rw [if_pos h3] at hf ⊢
    by_cases h4 : (seg_ref + 2097151) / 2097152 * 2097152 < seg_end / 2097152 * 2097152
    swap
    · rw [if_neg h4] at hf
      exact absurd hf (by decide)
    rw [if_pos h4] at hf ⊢
    by_cases h5 : (seg_end / 2097152 * 2097152 - (seg_ref + 2097151) / 2097152 * 2097152)
        / hps > 0
    swap
    · rw [if_neg h5] at hf
      exact absurd hf (by decide)
    rw [if_pos h5] at hf ⊢
    dsimp only
    refine ⟨e2, e3, ⟨_, Nat.mul_comm _ _⟩, ⟨_, Nat.mul_comm _ _⟩, by omega, h4, by omega,
      fun ha hb => absurd ⟨ha, hb⟩ h2, ?_⟩
    intro hc
    simp only [hhps] at hc h5 ⊢
    unfold size_t_to_int
    rw [Nat.mod_eq_of_lt (by omega), if_pos (by omega)]
    exact ⟨rfl, by omega⟩


/-- C30 amended, at a concrete input: the segment `[0, 0xa00000]`, the
reference symbol at `0x400000` and lpstub at `0x800000` give the region
`[0x400000, 0x800000)`, which ends at lpstub. -/
theorem C30_text_region_aligned_witness :
    (0x400000 + hps ≤ 2 ^ 64 ∧ 0x800000 < 2 ^ 64
      ∧ (FindNodeTextRegion exampleObjects 0x400000 0x800000).found_text_region = true)
    ∧ (FindNodeTextRegion exampleObjects 0x400000 0x800000).to_ ≤ 0x800000 :=
  ⟨⟨by decide, by decide, by decide⟩,
    (C30_text_region_aligned exampleObjects 0x400000 0x800000 (by decide) (by decide)
      (by decide)).2.2.2.2.2.2.2.1 (by decide) (by decide)⟩

/-- C26: the IO thread pushes `messages` one call after the other while the
control thread makes `drains` drains, each into a fresh vector, on a mailbox
that held `queue`. After every schedule of their steps, the drained vectors in
drain order, then the vector a swap under way holds, then the queue, then the
messages not yet written by a push, are exactly `queue ++ messages`: each
message is in one place, once, whole and in push order. When both threads have
finished, the drained vectors followed by the queue are `queue ++ messages`. -/
theorem C26_push_and_drain_atomic (queue messages : List Message) (drains : Nat)
    (schedule : List Tid) :
    accounted (runThreads true schedule (startThreads queue messages drains))
        ++ unpushed (runThreads true schedule (startThreads queue messages drains))
      = queue ++ messages
    ∧ ((runThreads true schedule (startThreads queue messages drains)).io_pending = [] →
        (runThreads true schedule (startThreads queue messages drains)).ctl_remaining = 0 →
        (runThreads true schedule (startThreads queue messages drains)).ctl_outputs.flatten
            ++ (runThreads true schedule (startThreads queue messages drains)).queue
          = queue ++ messages) := by
  have inv := ThreadsInv_run (queue ++ messages) schedule _
    (ThreadsInv_start queue messages drains)
  refine ⟨inv.conserved, fun hp hr => ?_⟩
  have hio : (runThreads true schedule (startThreads queue messages drains)).io_pc = .idle := by
    by_contra hne
    exact inv.io_busy hne hp
  have hctl : (runThreads true schedule (startThreads queue messages drains)).ctl_pc = .idle := by
    by_contra hne
    exact inv.ctl_busy hne hr
  have hc := inv.conserved
  simp only [accounted, unpushed, hio, hctl, hp] at hc
  simpa using hc

/-- C26 at a concrete schedule: the mailbox holds `a`, the control thread
takes the mutex and drains, the IO thread then pushes `b`; both finish, `a` is
in the drained vector and `b` in the queue. -/
theorem C26_push_and_drain_atomic_witness :
    (runThreads true
        [.control, .control, .io, .io, .io, .io, .control, .control, .control, .io, .io, .io,
          .io]
        (startThreads [['a']] [['b']] 1)).io_pending = []
    ∧ (runThreads true
        [.control, .control, .io, .io, .io, .io, .control, .control, .control, .io, .io, .io,
          .io]
        (startThreads [['a']] [['b']] 1)).ctl_remaining = 0
    ∧ (runThreads true
        [.control, .control, .io, .io, .io, .io, .control, .control, .control, .io, .io, .io,
          .io]
        (startThreads [['a']] [['b']] 1)).ctl_outputs.flatten
        ++ (runThreads true
          [.control, .control, .io, .io, .io, .io, .control, .control, .control, .io, .io, .io,
            .io]
          (startThreads [['a']] [['b']] 1)).queue
      = [['a']] ++ [['b']] :=
  ⟨by decide, by decide,
    (C26_push_and_drain_atomic [['a']] [['b']] 1
      [.control, .control, .io, .io, .io, .io, .control, .control, .control, .io, .io, .io,
        .io]).2 (by decide) (by decide)⟩
end Inspector
